import Mathlib

/-!
Log-group release pipeline: the class `LogGroupReleaser`.

A shallow embedding of `src/journal_manager/checkpoint/log_group_releaser.cpp`.

* The releaser object is the record `LogGroupReleaser` of its three mutable members.
* Every member function becomes a function on that record.  A function that calls a
  collaborator (dirty-page manager, sequence controller, checkpoint handler, log buffer,
  release notifier) returns the list of collaborator calls it made, in order.
* A failing `assert` is the result `none`.
* The value a collaborator returns to the releaser (`checkpointHandler->Start`,
  `logBuffer->AsyncReset`) is an argument of the embedded function, so that every theorem
  quantifies over it.
* `POS_TRACE_DEBUG` log lines are not modelled.
* Concurrent producers are two program counters over the atomic steps of
  `AddToFullLogGroup`, interleaved by an explicit schedule.

`VolumeMetaIntf::SaveVolumes` of `src/volume/volume_meta_intf.cpp` is embedded as a function of
the replies of the meta file system; it returns the event id and the calls it made.
-/

namespace pos

/-- Modelled from the spec: the type `MapPageList` is declared outside the two source files;
the spec describes it as a set of (map-id, page-index) pairs computed per log group. -/
abbrev MapPageList := List (Int × Nat)

/-- The sentinel `-1` that `flushingLogGroupId` holds when no group is being checkpointed. -/
def NONE : Int := -1

/-- A call made by the releaser on one of its collaborators. -/
inductive Call where
  /-- The call `checkpointHandler->Init(mapFlush, contextManager)`. -/
  | HandlerInit
  /-- The call `dirtyPageManager->GetDirtyList(groupId)`. -/
  | GetDirtyList (groupId : Int)
  /-- The call `sequenceController->GetCheckpointExecutionApproval()`. -/
  | GetCheckpointExecutionApproval
  /-- The call `checkpointHandler->Start(dirtyPages)`. -/
  | Start (dirtyPages : MapPageList)
  /-- The call `sequenceController->AllowCallbackExecution()`. -/
  | AllowCallbackExecution
  /-- The call `logBuffer->AsyncReset(groupId, callback)`; the callback is always
  `_LogGroupResetCompleted` bound to the releaser. -/
  | AsyncReset (groupId : Int)
  /-- The call `releaseNotifier->NotifyLogBufferReseted(groupId)`. -/
  | NotifyLogBufferReseted (groupId : Int)
  deriving DecidableEq, Repr

/-- The pure collaborator `DirtyMapManager`: the dirty-page list of each log group. -/
structure Collaborators where
  GetDirtyList : Int → MapPageList

/-- The mutable members of `LogGroupReleaser`. -/
structure LogGroupReleaser where
  flushingLogGroupId : Int
  fullLogGroup : List Int
  checkpointTriggerInProgress : Bool
  deriving DecidableEq, Repr

namespace LogGroupReleaser

/-- The constructor: `flushingLogGroupId(-1)`, `checkpointTriggerInProgress(false)`, and a
default-constructed (empty) `fullLogGroup`. -/
def new : LogGroupReleaser :=
  { flushingLogGroupId := -1, fullLogGroup := [], checkpointTriggerInProgress := false }

/-- `Init` stores the collaborator pointers and calls `checkpointHandler->Init`; the three
modelled members are untouched. -/
def Init (s : LogGroupReleaser) : LogGroupReleaser × List Call :=
  (s, [Call.HandlerInit])

/-- `Reset`: `flushingLogGroupId = -1; fullLogGroup.clear();`. -/
def Reset (s : LogGroupReleaser) : LogGroupReleaser :=
  { s with flushingLogGroupId := -1, fullLogGroup := [] }

/-- `_AddToFullLogGroupList`: `fullLogGroup.push_back(groupId)`. -/
def _AddToFullLogGroupList (groupId : Int) (s : LogGroupReleaser) : LogGroupReleaser :=
  { s with fullLogGroup := s.fullLogGroup ++ [groupId] }

/-- `_HasFullLogGroup`: `fullLogGroup.size() != 0`. -/
def _HasFullLogGroup (s : LogGroupReleaser) : Bool :=
  s.fullLogGroup.length != 0

/-- `_PopFullLogGroup`: asserts the list is non-empty, removes and returns its front. -/
def _PopFullLogGroup (s : LogGroupReleaser) : Option (Int × LogGroupReleaser) :=
  match s.fullLogGroup with
  | [] => none
  | retLogGroup :: rest => some (retLogGroup, { s with fullLogGroup := rest })

/-- `_UpdateFlushingLogGroup`: `flushingLogGroupId = _PopFullLogGroup()`. -/
def _UpdateFlushingLogGroup (s : LogGroupReleaser) : Option LogGroupReleaser :=
  match _PopFullLogGroup s with
  | none => none
  | some (g, s1) => some { s1 with flushingLogGroupId := g }

/-- `StartCheckpoint`: fetch the dirty list of the flushing group, take the sequence gate,
call the handler, release the gate.  `ret` is what `checkpointHandler->Start` returned; the
branch `if (ret != 0)` is empty in the source and the function returns `0`. -/
def StartCheckpoint (c : Collaborators) (ret : Int) (s : LogGroupReleaser) :
    Int × LogGroupReleaser × List Call :=
  let dirtyPages := c.GetDirtyList s.flushingLogGroupId
  let calls := [Call.GetDirtyList s.flushingLogGroupId, Call.GetCheckpointExecutionApproval,
    Call.Start dirtyPages, Call.AllowCallbackExecution]
  if ret != 0 then (0, s, calls) else (0, s, calls)

/-- `_FlushNextLogGroup`.  `checkpointTriggerInProgress.exchange(true)` stores `true` and
yields the old value; when the old value was `false` the front of the queue becomes the
flushing group, the assertion `flushingLogGroupId != -1` is checked, the flag is cleared and
the checkpoint is started. -/
def _FlushNextLogGroup (c : Collaborators) (ret : Int) (s : LogGroupReleaser) :
    Option (LogGroupReleaser × List Call) :=
  if s.flushingLogGroupId == -1 && _HasFullLogGroup s then
    let old := s.checkpointTriggerInProgress
    let s1 := { s with checkpointTriggerInProgress := true }
    if old == false then
      match _UpdateFlushingLogGroup s1 with
      | none => none
      | some s2 =>
        if s2.flushingLogGroupId != -1 then
          let s3 := { s2 with checkpointTriggerInProgress := false }
          let r := StartCheckpoint c ret s3
          some (r.2.1, r.2.2)
        else none
    else some (s1, [])
  else some (s, [])

/-- `AddToFullLogGroup`: `_AddToFullLogGroupList(groupId); _FlushNextLogGroup();`. -/
def AddToFullLogGroup (c : Collaborators) (ret : Int) (groupId : Int) (s : LogGroupReleaser) :
    Option (LogGroupReleaser × List Call) :=
  _FlushNextLogGroup c ret (_AddToFullLogGroupList groupId s)

/-- `CheckpointCompleted`: asserts `flushingLogGroupId != -1`, then calls
`logBuffer->AsyncReset(flushingLogGroupId, callback)`.  `ret` is what `AsyncReset` returned;
the branch `if (ret != 0)` is empty in the source. -/
def CheckpointCompleted (ret : Int) (s : LogGroupReleaser) :
    Option (LogGroupReleaser × List Call) :=
  if s.flushingLogGroupId != -1 then
    let calls := [Call.AsyncReset s.flushingLogGroupId]
    if ret != 0 then some (s, calls) else some (s, calls)
  else none

/-- `_ResetFlushingLogGroup`: `flushingLogGroupId = -1`. -/
def _ResetFlushingLogGroup (s : LogGroupReleaser) : LogGroupReleaser :=
  { s with flushingLogGroupId := -1 }

/-- `_LogGroupResetCompleted`, the callback handed to `AsyncReset`: notify, clear the flushing
group, try to start the next checkpoint. -/
def _LogGroupResetCompleted (c : Collaborators) (ret : Int) (logGroupId : Int)
    (s : LogGroupReleaser) : Option (LogGroupReleaser × List Call) :=
  match _FlushNextLogGroup c ret (_ResetFlushingLogGroup s) with
  | none => none
  | some (s1, calls) => some (s1, Call.NotifyLogBufferReseted logGroupId :: calls)

/-- `GetFlushingLogGroupId`. -/
def GetFlushingLogGroupId (s : LogGroupReleaser) : Int := s.flushingLogGroupId

/-- `GetFullLogGroups`: a copy of the queue. -/
def GetFullLogGroups (s : LogGroupReleaser) : List Int := s.fullLogGroup

/-- Conversion of an unsigned `size_t` value to the 32-bit `int` a function returns. -/
def toInt (n : Nat) : Int :=
  ((n + 2 ^ 31) % 2 ^ 32 : Nat) - 2 ^ 31

/-- `GetNumFullLogGroups`: `fullLogGroup.size() + 1` when a group is flushing, else
`fullLogGroup.size()`; the sum is computed in the 64-bit `size_t` and returned as `int`.
The releaser is returned next to the value to show that no member is written. -/
def GetNumFullLogGroups (s : LogGroupReleaser) : Int × LogGroupReleaser :=
  if s.flushingLogGroupId != -1 then
    (toInt ((s.fullLogGroup.length + 1) % 2 ^ 64), s)
  else
    (toInt s.fullLogGroup.length, s)

end LogGroupReleaser

/-! ## Sequential schedules and the recording test doubles -/

/-- One sequential application of a releaser operation, together with the value the
collaborator called inside it (if any) hands back. -/
inductive Op where
  /-- The call `AddToFullLogGroup(groupId)`; `startRet` is the result of the handler start. -/
  | AddToFullLogGroup (groupId : Int) (startRet : Int)
  /-- The call `CheckpointCompleted()`; `resetRet` is the result of `AsyncReset`. -/
  | CheckpointCompleted (resetRet : Int)
  /-- The log buffer fires the stored callback `_LogGroupResetCompleted(logGroupId)`;
  `startRet` is the result of the handler start. -/
  | LogGroupResetCompleted (logGroupId : Int) (startRet : Int)
  /-- The call `Reset()`. -/
  | Reset
  deriving DecidableEq, Repr

/-- The value the collaborator returns during the operation. -/
def Op.ret : Op → Int
  | .AddToFullLogGroup _ r => r
  | .CheckpointCompleted r => r
  | .LogGroupResetCompleted _ r => r
  | .Reset => 0

/-- The group id an operation enqueues. -/
def Op.added : Op → List Int
  | .AddToFullLogGroup g _ => [g]
  | _ => []

/-- The ids enqueued by a schedule, in order. -/
def addedIds (ops : List Op) : List Int :=
  ops.flatMap Op.added

/-- One operation applied to the releaser. -/
def step (c : Collaborators) : Op → LogGroupReleaser →
    Option (LogGroupReleaser × List Call)
  | .AddToFullLogGroup g r, s => LogGroupReleaser.AddToFullLogGroup c r g s
  | .CheckpointCompleted r, s => LogGroupReleaser.CheckpointCompleted r s
  | .LogGroupResetCompleted g r, s => LogGroupReleaser._LogGroupResetCompleted c r g s
  | .Reset, s => some (LogGroupReleaser.Reset s, [])

/-- A schedule applied to the releaser; the calls of all operations are concatenated. -/
def run (c : Collaborators) : List Op → LogGroupReleaser →
    Option (LogGroupReleaser × List Call)
  | [], s => some (s, [])
  | op :: ops, s =>
    match step c op s with
    | none => none
    | some (s1, calls) =>
      match run c ops s1 with
      | none => none
      | some (s2, calls2) => some (s2, calls ++ calls2)

/-- What the recording doubles of the checkpoint handler and of the log buffer still owe the
releaser. -/
inductive Pending where
  /-- Nothing is owed. -/
  | idle
  /-- The handler accepted a `Start` (returned 0) and owes one `CheckpointCompleted()`. -/
  | started
  /-- The log buffer accepted `AsyncReset(g, callback)` (returned 0) and owes `callback(g)`. -/
  | resetting (g : Int)
  /-- The handler refused the `Start` (non-zero result): it will never complete. -/
  | refused
  /-- The log buffer refused the `AsyncReset` (non-zero result): no callback will fire. -/
  | failed
  deriving DecidableEq, Repr

/-- May the environment issue this operation now?  Producers may always add; the handler calls
`CheckpointCompleted` once per accepted `Start`; the log buffer fires the callback once per
accepted `AsyncReset`, with the id it was given; `Reset` needs that no checkpoint is active. -/
def admissible : Pending → Op → Bool
  | _, .AddToFullLogGroup _ _ => true
  | .started, .CheckpointCompleted _ => true
  | .resetting g, .LogGroupResetCompleted g1 _ => g == g1
  | .idle, .Reset => true
  | _, _ => false

/-- Issuing a completion discharges what was owed. -/
def consume : Pending → Op → Pending
  | .started, .CheckpointCompleted _ => .idle
  | .resetting _, .LogGroupResetCompleted _ _ => .idle
  | p, _ => p

/-- A double records a call it receives and answers `ret`. -/
def observe (ret : Int) : Pending → Call → Pending
  | _, .Start _ => if ret = 0 then .started else .refused
  | _, .AsyncReset g => if ret = 0 then .resetting g else .failed
  | p, _ => p

/-- The doubles after an operation that made the calls `calls`. -/
def Pending.next (p : Pending) (op : Op) (calls : List Call) : Pending :=
  calls.foldl (observe op.ret) (consume p op)

/-- Every operation of the schedule is admissible at the moment it is issued.  (A failed
assertion ends the run; nothing is required of the operations after it.) -/
def conforms (c : Collaborators) : Pending → LogGroupReleaser → List Op → Bool
  | _, _, [] => true
  | p, s, op :: ops =>
    admissible p op &&
      match step c op s with
      | none => true
      | some (s1, calls) => conforms c (p.next op calls) s1 ops

/-- The doubles at the end of the schedule. -/
def pendingAfter (c : Collaborators) : Pending → LogGroupReleaser → List Op → Pending
  | p, _, [] => p
  | p, s, op :: ops =>
    match step c op s with
    | none => p
    | some (s1, calls) => pendingAfter c (p.next op calls) s1 ops

/-! ## Projections of a call trace -/

/-- The arguments of the `checkpointHandler->Start` calls, in order. -/
def starts (tr : List Call) : List MapPageList :=
  tr.filterMap fun
    | .Start pages => some pages
    | _ => none

/-- The arguments of the `GetDirtyList` calls, in order. -/
def dirtyQueries (tr : List Call) : List Int :=
  tr.filterMap fun
    | .GetDirtyList g => some g
    | _ => none

/-- The group arguments of the `AsyncReset` calls, in order. -/
def resets (tr : List Call) : List Int :=
  tr.filterMap fun
    | .AsyncReset g => some g
    | _ => none

/-- The arguments of the `NotifyLogBufferReseted` calls, in order. -/
def notifies (tr : List Call) : List Int :=
  tr.filterMap fun
    | .NotifyLogBufferReseted g => some g
    | _ => none

/-- The calls made by `StartCheckpoint`: dirty-page index, sequence gate, handler. -/
def Call.isCheckpointCall : Call → Bool
  | .GetDirtyList _ => true
  | .GetCheckpointExecutionApproval => true
  | .Start _ => true
  | .AllowCallbackExecution => true
  | _ => false

/-- The sub-trace of the calls made by `StartCheckpoint`. -/
def checkpointCalls (tr : List Call) : List Call :=
  tr.filter Call.isCheckpointCall

/-- An observer of the call trace: the group whose checkpoint is in flight (started by
`Start`, not yet released by the notification carrying its id), the id of the latest
`GetDirtyList`, and whether every `Start` so far came when nothing was in flight. -/
structure Watch where
  inFlight : Option Int
  lastQuery : Int
  ok : Bool
  deriving DecidableEq, Repr

/-- The observer sees one call. -/
def Watch.see (w : Watch) : Call → Watch
  | .GetDirtyList g => { w with lastQuery := g }
  | .Start _ => { w with inFlight := some w.lastQuery, ok := w.ok && w.inFlight.isNone }
  | .NotifyLogBufferReseted g => if w.inFlight = some g then { w with inFlight := none } else w
  | _ => w

/-- No `Start` of the trace comes between an earlier `Start` for a group and the
reset-completion notification of that group. -/
def exclusive (tr : List Call) : Bool :=
  (tr.foldl Watch.see { inFlight := none, lastQuery := NONE, ok := true }).ok

/-- The state a conforming sequential schedule keeps the releaser in, relative to what the
doubles owe: the admission flag is clear, the queue holds no sentinel, the releaser is idle
with an empty queue exactly when nothing is owed, and a pending reset is for the flushing
group. -/
def Good (p : Pending) (s : LogGroupReleaser) : Prop :=
  s.checkpointTriggerInProgress = false ∧ (∀ x ∈ s.fullLogGroup, x ≠ -1) ∧
    (p = .idle → s.flushingLogGroupId = -1 ∧ s.fullLogGroup = []) ∧
    (p ≠ .idle → s.flushingLogGroupId ≠ -1) ∧
    (∀ g, p = .resetting g → g = s.flushingLogGroupId)

/-- The started group for which no `AsyncReset` has been issued yet. -/
def owed (p : Pending) (s : LogGroupReleaser) : List Int :=
  match p with
  | .started => [s.flushingLogGroupId]
  | .refused => [s.flushingLogGroupId]
  | _ => []

/-- The flushing group as an option. -/
def flushing (s : LogGroupReleaser) : Option Int :=
  if s.flushingLogGroupId = -1 then none else some s.flushingLogGroupId

/-- The four calls `StartCheckpoint` makes for the flushing group `g`. -/
def startCalls (c : Collaborators) (g : Int) : List Call :=
  [Call.GetDirtyList g, Call.GetCheckpointExecutionApproval, Call.Start (c.GetDirtyList g),
    Call.AllowCallbackExecution]

/-- A collaborator set used in the concrete scenarios: group `g` dirtied page `g` of map 0. -/
def demo : Collaborators :=
  { GetDirtyList := fun g => [(0, g.toNat)] }

open LogGroupReleaser

/-- An observer of the call trace that pairs notifications with resets: the ids handed to
`AsyncReset` and not yet notified, and whether every `NotifyLogBufferReseted g` so far came
after an `AsyncReset g` that no earlier notification had used up. -/
structure ResetLog where
  outstanding : List Int
  ok : Bool
  deriving DecidableEq, Repr

/-- The observer sees one call. -/
def ResetLog.see (w : ResetLog) : Call → ResetLog
  | .AsyncReset g => { w with outstanding := g :: w.outstanding }
  | .NotifyLogBufferReseted g =>
    { outstanding := w.outstanding.erase g, ok := w.ok && decide (g ∈ w.outstanding) }
  | _ => w

/-- Every `NotifyLogBufferReseted g` of the trace is preceded by its own `AsyncReset g`. -/
def notifiedAfterReset (tr : List Call) : Bool :=
  (tr.foldl ResetLog.see { outstanding := [], ok := true }).ok

/-! ## Two producers: the atomic steps of `AddToFullLogGroup` -/

/-- The position of a thread inside `AddToFullLogGroup`: the `push_back` under the queue lock,
the test `flushingLogGroupId == -1 && _HasFullLogGroup()`, the `exchange(true)` on the
admission flag, `_UpdateFlushingLogGroup`, the assertion, the store of `false` into the flag,
`StartCheckpoint`, and the return. -/
inductive Pc where
  | addToList
  | test
  | exchange
  | update
  | assertFlushing
  | clear
  | start
  | done
  deriving DecidableEq, Repr

/-- A thread executing `AddToFullLogGroup(groupId)`; `startRet` is what the handler would
answer to its `Start`. -/
structure Producer where
  pc : Pc
  groupId : Int
  startRet : Int
  deriving DecidableEq, Repr

/-- One atomic step of a producer on the shared releaser.  Each step is a piece of the body of
`AddToFullLogGroup` and `_FlushNextLogGroup`, in source order; `none` is a failed assertion.
A thread that has returned does nothing. -/
def Producer.step (c : Collaborators) (t : Producer) (s : LogGroupReleaser) :
    Option (Producer × LogGroupReleaser × List Call) :=
  match t.pc with
  | .addToList => some ({ t with pc := .test }, _AddToFullLogGroupList t.groupId s, [])
  | .test =>
    if s.flushingLogGroupId == -1 && _HasFullLogGroup s then
      some ({ t with pc := .exchange }, s, [])
    else some ({ t with pc := .done }, s, [])
  | .exchange =>
    let old := s.checkpointTriggerInProgress
    let s1 := { s with checkpointTriggerInProgress := true }
    if old == false then some ({ t with pc := .update }, s1, [])
    else some ({ t with pc := .done }, s1, [])
  | .update =>
    match _UpdateFlushingLogGroup s with
    | none => none
    | some s2 => some ({ t with pc := .assertFlushing }, s2, [])
  | .assertFlushing =>
    if s.flushingLogGroupId != -1 then some ({ t with pc := .clear }, s, []) else none
  | .clear => some ({ t with pc := .start }, { s with checkpointTriggerInProgress := false }, [])
  | .start =>
    let r := StartCheckpoint c t.startRet s
    some ({ t with pc := .done }, r.2.1, r.2.2)
  | .done => some (t, s, [])

/-- A single producer run for `fuel` steps. -/
def Producer.solo (c : Collaborators) : Nat → Producer → LogGroupReleaser →
    Option (LogGroupReleaser × List Call)
  | 0, _, s => some (s, [])
  | fuel + 1, t, s =>
    match t.step c s with
    | none => none
    | some (t1, s1, calls) =>
      match Producer.solo c fuel t1 s1 with
      | none => none
      | some (s2, calls2) => some (s2, calls ++ calls2)

/-- Two producers interleaved: each entry of the schedule names the thread that takes the next
atomic step (`false` the first producer, `true` the second). -/
def interleave (c : Collaborators) : List Bool → Producer → Producer → LogGroupReleaser →
    Option (Producer × Producer × LogGroupReleaser × List Call)
  | [], a, b, s => some (a, b, s, [])
  | false :: rest, a, b, s =>
    match a.step c s with
    | none => none
    | some (a1, s1, calls) =>
      match interleave c rest a1 b s1 with
      | none => none
      | some (a2, b2, s2, calls2) => some (a2, b2, s2, calls ++ calls2)
  | true :: rest, a, b, s =>
    match b.step c s with
    | none => none
    | some (b1, s1, calls) =>
      match interleave c rest a b1 s1 with
      | none => none
      | some (a2, b2, s2, calls2) => some (a2, b2, s2, calls ++ calls2)

/-! ## Volume metadata: `VolumeMetaIntf::SaveVolumes` -/

/-- The enumerators of `POS_EVENT_ID` that `SaveVolumes` returns or compares with, as the
`int` values they are cast to.  The enum is declared in `src/include/pos_event_id.h`, which is
not among the source files, so the values are parameters. -/
structure EventIds where
  SUCCESS : Int
  META_CREATE_FAIL : Int
  META_OPEN_FAIL : Int
  META_WRITE_FAIL : Int
  VOL_DATA_SIZE_TOO_BIG : Int

/-- The members of a volume that `SaveVolumes` reads. -/
structure VolumeBase where
  name : String
  ID : Int
  totalSize : Nat
  maxIOPS : Nat
  maxBW : Nat
  valid : Bool

/-- The volume list as `SaveVolumes` sees it: the result of `Count()` and the volumes that
successive `Next(idx)` calls return before `nullptr`. -/
structure VolumeList where
  Count : Int
  volumes : List VolumeBase

/-- What the meta file system answers to `SaveVolumes`: the results of `CheckFileExist`,
`Create`, `Open` and `Write` (values of `POS_EVENT_ID`) and the descriptor `Open` stores. -/
structure MetaFsReplies where
  CheckFileExist : Int
  Create : Int
  Open : Int
  fd : Int
  Write : Int

/-- A call of `SaveVolumes` on the meta file system. -/
inductive MetaCall where
  | CheckFileExist (file : String)
  | Create (file : String) (fileSize : Nat)
  | Open (file : String)
  | Write (fd : Int) (contents : String)
  | Close (fd : Int)
  deriving DecidableEq, Repr

namespace VolumeMetaIntf

/-- The attributes `SaveVolumes` sets on the JSON element of one volume. -/
def attributes (vol : VolumeBase) : List (String × String) :=
  [("name", String.singleton (Char.ofNat 34) ++ vol.name ++ String.singleton (Char.ofNat 34)),
    ("id", toString vol.ID), ("total", toString vol.totalSize),
    ("maxiops", toString vol.maxIOPS), ("maxbw", toString vol.maxBW)]

/-- The string `SaveVolumes` builds in `contents`: empty when `Count()` is not positive, else
the JSON text of the array `volumes` holding one element per valid volume. -/
def serialize (ToJson : String → List (List (String × String)) → String)
    (volList : VolumeList) : String :=
  if volList.Count > 0 then
    ToJson "volumes" ((volList.volumes.filter fun vol => vol.valid == true).map attributes)
  else ""

/-- `SaveVolumes`.  `ToJson` stands for the JSON helper (`root.ToJson()` of a root element
holding the named array of elements), which is outside the source files.  The result of
`io->Write` is stored in `ioRC` and never read: the test after `Close` reads `rc`, which
still holds the result of `Open`. -/
def SaveVolumes (ids : EventIds) (ToJson : String → List (List (String × String)) → String)
    (metaFs : MetaFsReplies) (volList : VolumeList) : Int × List MetaCall :=
  let volFile := "vbr"
  let fileSize : Nat := 256 * 1024
  let contents := serialize ToJson volList
  let rc := metaFs.CheckFileExist
  if rc ≠ ids.SUCCESS ∧ metaFs.Create ≠ ids.SUCCESS then
    (ids.META_CREATE_FAIL, [MetaCall.CheckFileExist volFile, MetaCall.Create volFile fileSize])
  else
    let calls :=
      if rc ≠ ids.SUCCESS then
        [MetaCall.CheckFileExist volFile, MetaCall.Create volFile fileSize]
      else [MetaCall.CheckFileExist volFile]
    let rc := metaFs.Open
    if rc ≠ ids.SUCCESS then
      (ids.META_OPEN_FAIL, calls ++ [MetaCall.Open volFile])
    else
      let contentsSize := contents.utf8ByteSize % 2 ^ 32
      if contentsSize ≥ fileSize then
        (ids.VOL_DATA_SIZE_TOO_BIG, calls ++ [MetaCall.Open volFile])
      else
        let _ioRC := metaFs.Write
        let calls := calls ++ [MetaCall.Open volFile, MetaCall.Write metaFs.fd contents,
          MetaCall.Close metaFs.fd]
        if rc ≠ ids.SUCCESS then (ids.META_WRITE_FAIL, calls) else (ids.SUCCESS, calls)

end VolumeMetaIntf

/-- Sample values for the event ids in the concrete scenarios (pairwise distinct). -/
def demoIds : EventIds :=
  { SUCCESS := 0, META_CREATE_FAIL := 1, META_OPEN_FAIL := 2, META_WRITE_FAIL := 3,
    VOL_DATA_SIZE_TOO_BIG := 4 }

/-- A sample JSON helper for the concrete scenarios: it lists the attribute values. -/
def demoJson (name : String) (elems : List (List (String × String))) : String :=
  name ++ String.join (elems.map fun e => String.join (e.map fun a => a.1 ++ a.2))

/-! ## Lemmas about single operations -/

theorem flushNext_start (c : Collaborators) (ret : Int) (f h : Int) (t : List Int)
    (hf : f = -1) (hh : h ≠ -1) :
    _FlushNextLogGroup c ret ⟨f, h :: t, false⟩ = some (⟨h, t, false⟩, startCalls c h) := by
  subst hf
  simp [_FlushNextLogGroup, _HasFullLogGroup, _UpdateFlushingLogGroup, _PopFullLogGroup,
    StartCheckpoint, startCalls, hh]

theorem flushNext_busy (c : Collaborators) (ret : Int) (s : LogGroupReleaser)
    (hf : s.flushingLogGroupId ≠ -1) :
    _FlushNextLogGroup c ret s = some (s, []) := by
  simp [_FlushNextLogGroup, hf]

theorem flushNext_empty (c : Collaborators) (ret : Int) (f : Int) (b : Bool) :
    _FlushNextLogGroup c ret ⟨f, [], b⟩ = some (⟨f, [], b⟩, []) := by
  simp [_FlushNextLogGroup, _HasFullLogGroup]

theorem good_new : Good .idle new := by
  simp [Good, new]

theorem step_conforming (c : Collaborators) (p : Pending) (s : LogGroupReleaser) (op : Op)
    (hgood : Good p s) (hadm : admissible p op = true) (hid : ∀ g ∈ op.added, g ≠ -1) :
    ∃ s1 cs, step c op s = some (s1, cs) ∧ Good (p.next op cs) s1 ∧
      dirtyQueries cs ++ s1.fullLogGroup = s.fullLogGroup ++ op.added ∧
      checkpointCalls cs = (dirtyQueries cs).flatMap (startCalls c) ∧
      owed p s ++ dirtyQueries cs = resets cs ++ owed (p.next op cs) s1 ∧
      (∀ w : Watch, w.inFlight = flushing s →
        (cs.foldl Watch.see w).inFlight = flushing s1 ∧ (cs.foldl Watch.see w).ok = w.ok) := by
  obtain ⟨f, q, b⟩ := s
  obtain ⟨hb, hq, hidle, hbusy, hres⟩ := hgood
  simp only at hb hq hidle hbusy hres
  subst hb
  cases op with
  | AddToFullLogGroup g r =>
    have hg : g ≠ -1 := hid g (by simp [Op.added])
    by_cases hp : p = .idle
    · obtain ⟨hf, hq0⟩ := hidle hp
      subst hf hq0 hp
      refine ⟨⟨g, [], false⟩, startCalls c g, ?_, ?_, ?_, ?_, ?_, ?_⟩
      · exact flushNext_start c r (-1) g [] rfl hg
      · by_cases hr : r = 0 <;>
          simp [Good, Pending.next, startCalls, observe, consume, Op.ret, hr, hg]
      · simp [dirtyQueries, startCalls, Op.added]
      · simp [checkpointCalls, dirtyQueries, startCalls, Call.isCheckpointCall]
      · by_cases hr : r = 0 <;>
          simp [owed, Pending.next, startCalls, observe, consume, Op.ret, hr, dirtyQueries,
            resets]
      · intro w hw
        simp [flushing] at hw
        simp [startCalls, Watch.see, flushing, hg, hw]
    · have hf := hbusy hp
      have hn : p.next (.AddToFullLogGroup g r) [] = p := by cases p <;> rfl
      refine ⟨⟨f, q ++ [g], false⟩, [], ?_, ?_, ?_, ?_, ?_, ?_⟩
      · exact flushNext_busy c r ⟨f, q ++ [g], false⟩ hf
      · rw [hn]
        refine ⟨rfl, ?_, ?_, ?_, ?_⟩
        · intro x hx
          rcases List.mem_append.mp hx with h | h
          · exact hq x h
          · simp at h; subst h; exact hg
        · intro h; exact absurd h hp
        · intro _; exact hf
        · intro g1 h; exact hres g1 h
      · simp [dirtyQueries, Op.added]
      · simp [checkpointCalls, dirtyQueries]
      · rw [hn]
        simp [dirtyQueries, resets]
        cases p <;> rfl
      · intro w hw
        simp [flushing] at hw ⊢
        exact hw
  | CheckpointCompleted r =>
    cases p <;> simp [admissible] at hadm
    have hf : f ≠ -1 := hbusy (by simp)
    refine ⟨⟨f, q, false⟩, [Call.AsyncReset f], ?_, ?_, ?_, ?_, ?_, ?_⟩
    · by_cases hr : r = 0 <;> simp [step, CheckpointCompleted, hf, hr]
    · by_cases hr : r = 0 <;>
        simp [Good, Pending.next, observe, consume, Op.ret, hr, hf] <;> exact hq
    · simp [dirtyQueries, Op.added]
    · simp [checkpointCalls, dirtyQueries, Call.isCheckpointCall]
    · by_cases hr : r = 0 <;>
        simp [owed, Pending.next, observe, consume, Op.ret, hr, dirtyQueries, resets]
    · intro w hw
      simp [Watch.see]
      exact hw
  | LogGroupResetCompleted g r =>
    cases p <;> simp [admissible] at hadm
    rename_i g0
    subst hadm
    have hf : f ≠ -1 := hbusy (by simp)
    have hgf : g0 = f := hres g0 rfl
    subst hgf
    cases q with
    | nil =>
      refine ⟨⟨-1, [], false⟩, [Call.NotifyLogBufferReseted g0], ?_, ?_, ?_, ?_, ?_, ?_⟩
      · simp [step, _LogGroupResetCompleted, _ResetFlushingLogGroup, flushNext_empty]
      · simp [Good, Pending.next, observe, consume]
      · simp [dirtyQueries, Op.added]
      · simp [checkpointCalls, dirtyQueries, Call.isCheckpointCall]
      · simp [owed, Pending.next, observe, consume, dirtyQueries, resets]
      · intro w hw
        simp [flushing, hf] at hw
        simp [Watch.see, flushing, hw]
    | cons h t =>
      have hh : h ≠ -1 := hq h (List.mem_cons_self h t)
      refine ⟨⟨h, t, false⟩, Call.NotifyLogBufferReseted g0 :: startCalls c h,
        ?_, ?_, ?_, ?_, ?_, ?_⟩
      · simp [step, _LogGroupResetCompleted, _ResetFlushingLogGroup,
          flushNext_start c r (-1) h t rfl hh]
      · have ht : ∀ x ∈ t, x ≠ -1 := fun x hx => hq x (List.mem_cons_of_mem h hx)
        by_cases hr : r = 0 <;>
          simp [Good, Pending.next, startCalls, observe, consume, Op.ret, hr, hh] <;>
          exact ht
      · simp [dirtyQueries, startCalls, Op.added]
      · simp [checkpointCalls, dirtyQueries, startCalls, Call.isCheckpointCall]
      · by_cases hr : r = 0 <;>
          simp [owed, Pending.next, startCalls, observe, consume, Op.ret, hr, dirtyQueries,
            resets]
      · intro w hw
        simp [flushing, hf] at hw
        simp [startCalls, Watch.see, flushing, hh, hw]
  | Reset =>
    cases p <;> simp [admissible] at hadm
    obtain ⟨hf, hq0⟩ := hidle rfl
    subst hf hq0
    refine ⟨⟨-1, [], false⟩, [], ?_, ?_, ?_, ?_, ?_, ?_⟩
    · simp [step, Reset]
    · simp [Good, Pending.next, consume]
    · simp [dirtyQueries, Op.added]
    · simp [checkpointCalls, dirtyQueries]
    · simp [owed, Pending.next, consume, dirtyQueries, resets]
    · intro w hw
      simp [flushing] at hw ⊢
      exact hw

theorem run_conforming (c : Collaborators) :
    ∀ (ops : List Op) (p : Pending) (s : LogGroupReleaser), Good p s →
      conforms c p s ops = true → (∀ g ∈ addedIds ops, g ≠ -1) →
      ∃ s1 tr, run c ops s = some (s1, tr) ∧ Good (pendingAfter c p s ops) s1 ∧
        dirtyQueries tr ++ s1.fullLogGroup = s.fullLogGroup ++ addedIds ops ∧
        checkpointCalls tr = (dirtyQueries tr).flatMap (startCalls c) ∧
        owed p s ++ dirtyQueries tr = resets tr ++ owed (pendingAfter c p s ops) s1 ∧
        (∀ w : Watch, w.inFlight = flushing s →
          (tr.foldl Watch.see w).inFlight = flushing s1 ∧
            (tr.foldl Watch.see w).ok = w.ok) := by
  intro ops
  induction ops with
  | nil =>
    intro p s hgood _ _
    refine ⟨s, [], rfl, hgood, ?_, ?_, ?_, ?_⟩
    · simp [dirtyQueries, addedIds]
    · simp [checkpointCalls, dirtyQueries]
    · simp [dirtyQueries, resets, pendingAfter]
    · intro w hw
      exact ⟨hw, rfl⟩
  | cons op ops ih =>
    intro p s hgood hconf hids
    have hadm : admissible p op = true := by
      simp only [conforms, Bool.and_eq_true] at hconf
      exact hconf.1
    have hid : ∀ g ∈ op.added, g ≠ -1 := by
      intro g hg
      apply hids g
      simp only [addedIds, List.flatMap_cons, List.mem_append]
      exact Or.inl hg
    obtain ⟨s1, cs, hstep, hgood1, hq1, hcp1, how1, hw1⟩ :=
      step_conforming c p s op hgood hadm hid
    have hconf1 : conforms c (p.next op cs) s1 ops = true := by
      simp only [conforms, hstep, Bool.and_eq_true] at hconf
      exact hconf.2
    have hids1 : ∀ g ∈ addedIds ops, g ≠ -1 := by
      intro g hg
      apply hids g
      simp only [addedIds, List.flatMap_cons, List.mem_append]
      exact Or.inr hg
    obtain ⟨s2, tr, hrun, hgood2, hq2, hcp2, how2, hw2⟩ :=
      ih (p.next op cs) s1 hgood1 hconf1 hids1
    have hpa : pendingAfter c p s (op :: ops) = pendingAfter c (p.next op cs) s1 ops := by
      simp only [pendingAfter, hstep]
    refine ⟨s2, cs ++ tr, ?_, ?_, ?_, ?_, ?_, ?_⟩
    · simp only [run, hstep, hrun]
    · rw [hpa]; exact hgood2
    · have : dirtyQueries (cs ++ tr) = dirtyQueries cs ++ dirtyQueries tr := by
        simp [dirtyQueries]
      rw [this, List.append_assoc, hq2, ← List.append_assoc, hq1]
      simp [addedIds]
    · have h1 : dirtyQueries (cs ++ tr) = dirtyQueries cs ++ dirtyQueries tr := by
        simp [dirtyQueries]
      have h2 : checkpointCalls (cs ++ tr) = checkpointCalls cs ++ checkpointCalls tr := by
        simp [checkpointCalls]
      rw [h1, h2, hcp1, hcp2, List.flatMap_append]
    · have h1 : dirtyQueries (cs ++ tr) = dirtyQueries cs ++ dirtyQueries tr := by
        simp [dirtyQueries]
      have h2 : resets (cs ++ tr) = resets cs ++ resets tr := by
        simp [resets]
      rw [hpa, h1, h2, ← List.append_assoc, how1, List.append_assoc, how2, List.append_assoc]
    · intro w hw
      obtain ⟨ha, hb⟩ := hw1 w hw
      obtain ⟨ha2, hb2⟩ := hw2 (cs.foldl Watch.see w) ha
      rw [List.foldl_append]
      exact ⟨ha2, hb2.trans hb⟩

theorem starts_checkpointCalls (tr : List Call) : starts (checkpointCalls tr) = starts tr := by
  induction tr with
  | nil => rfl
  | cons a tr ih =>
    cases a <;>
      simp_all [starts, checkpointCalls, Call.isCheckpointCall, List.filter_cons,
        List.filterMap_cons]

theorem starts_startCalls (c : Collaborators) (l : List Int) :
    starts (l.flatMap (startCalls c)) = l.map c.GetDirtyList := by
  induction l with
  | nil => rfl
  | cons g l ih =>
    have h : starts (startCalls c g ++ l.flatMap (startCalls c))
        = c.GetDirtyList g :: starts (l.flatMap (startCalls c)) := by
      simp [starts, startCalls]
    rw [List.flatMap_cons, h, ih, List.map_cons]

/-- Everything a conforming schedule from the post-constructor state guarantees once the
doubles owe nothing at its end. -/
theorem run_completed (c : Collaborators) (ops : List Op)
    (hconf : conforms c .idle new ops = true) (hids : ∀ g ∈ addedIds ops, g ≠ -1)
    (hdone : pendingAfter c .idle new ops = .idle) :
    ∃ tr, run c ops new = some (new, tr) ∧ dirtyQueries tr = addedIds ops ∧
      checkpointCalls tr = (addedIds ops).flatMap (startCalls c) ∧
      starts tr = (addedIds ops).map c.GetDirtyList ∧ resets tr = addedIds ops := by
  obtain ⟨s1, tr, hrun, hgood, hq, hcp, how, _⟩ :=
    run_conforming c ops .idle new good_new hconf hids
  rw [hdone] at hgood how
  obtain ⟨hb, _, hidle, _, _⟩ := hgood
  obtain ⟨hf, hq0⟩ := hidle rfl
  have hs1 : s1 = new := by
    obtain ⟨f, q, b⟩ := s1
    simp only at hb hf hq0
    subst hb hf hq0
    rfl
  subst hs1
  have hdq : dirtyQueries tr = addedIds ops := by
    simpa [new] using hq
  have hcp2 : checkpointCalls tr = (addedIds ops).flatMap (startCalls c) := by
    rw [hcp, hdq]
  refine ⟨tr, hrun, hdq, hcp2, ?_, ?_⟩
  · rw [← starts_checkpointCalls, hcp2, starts_startCalls]
  · have : dirtyQueries tr = resets tr := by simpa [owed] using how
    rw [← this, hdq]

theorem getNum_wraps (f : Int) (q : List Int) (b : Bool) (hf : f ≠ -1)
    (hq : q.length = 2147483647) :
    (GetNumFullLogGroups ⟨f, q, b⟩).1 = -2147483648 := by
  simp only [GetNumFullLogGroups, toInt, hq]
  simp [hf]

theorem run_adds_busy (c : Collaborators) (f : Int) (hf : f ≠ -1) :
    ∀ (hs : List (Int × Int)) (q : List Int) (b : Bool),
      run c (hs.map fun h => Op.AddToFullLogGroup h.1 h.2) ⟨f, q, b⟩
        = some (⟨f, q ++ hs.map Prod.fst, b⟩, []) := by
  intro hs
  induction hs with
  | nil => intro q b; simp [run]
  | cons h hs ih =>
    intro q b
    have h1 : step c (.AddToFullLogGroup h.1 h.2) ⟨f, q, b⟩
        = some (⟨f, q ++ [h.1], b⟩, []) :=
      flushNext_busy c h.2 ⟨f, q ++ [h.1], b⟩ hf
    simp [run, h1, ih]

/-! ## Claims -/

/-- C1: from an idle releaser (no flushing group, admission flag clear) whose queue `q` and
new id `g` hold group ids (none is the sentinel), `AddToFullLogGroup g` makes the front of
`q ++ [g]` the flushing group, leaves the rest of `q ++ [g]` queued, and calls
`checkpointHandler->Start` exactly once, on the dirty list of that front id (between the two
calls of the sequence gate).  From the post-constructor state, `AddToFullLogGroup 0` calls
`Start` on the dirty list of 0 and leaves flushing group 0 and an empty queue. -/
theorem C1_add_when_idle (c : Collaborators) (ret : Int) (q : List Int) (g : Int)
    (hq : ∀ x ∈ q, x ≠ NONE) (hg : g ≠ NONE) :
    (∃ h t, q ++ [g] = h :: t ∧
      AddToFullLogGroup c ret g ⟨NONE, q, false⟩
        = some (⟨h, t, false⟩,
            [Call.GetDirtyList h, Call.GetCheckpointExecutionApproval,
              Call.Start (c.GetDirtyList h), Call.AllowCallbackExecution])) ∧
    AddToFullLogGroup c ret 0 (Init new).1
      = some (⟨0, [], false⟩,
          [Call.GetDirtyList 0, Call.GetCheckpointExecutionApproval,
            Call.Start (c.GetDirtyList 0), Call.AllowCallbackExecution]) := by
  refine ⟨?_, ?_⟩
  · cases q with
    | nil =>
      refine ⟨g, [], rfl, ?_⟩
      exact flushNext_start c ret NONE g [] rfl hg
    | cons h t =>
      refine ⟨h, t ++ [g], rfl, ?_⟩
      exact flushNext_start c ret NONE h (t ++ [g]) rfl (hq h (List.mem_cons_self h t))
  · exact flushNext_start c ret (-1) 0 [] rfl (by decide)

/-- C1 witness: queue `[5]`, new id `6`. -/
theorem C1_add_when_idle_witness :
    (∃ h t, [5] ++ [6] = h :: t ∧
      AddToFullLogGroup demo 0 6 ⟨NONE, [5], false⟩
        = some (⟨h, t, false⟩,
            [Call.GetDirtyList h, Call.GetCheckpointExecutionApproval,
              Call.Start (demo.GetDirtyList h), Call.AllowCallbackExecution])) ∧
    AddToFullLogGroup demo 0 0 (Init new).1
      = some (⟨0, [], false⟩,
          [Call.GetDirtyList 0, Call.GetCheckpointExecutionApproval,
            Call.Start (demo.GetDirtyList 0), Call.AllowCallbackExecution]) :=
  C1_add_when_idle demo 0 [5] 6 (by decide) (by decide)

/-- C2: groups are checkpointed in FIFO order.  Take any sequential schedule from the
post-Init state in which the handler double calls `CheckpointCompleted` once per `Start` it
accepted and the log-buffer double fires the callback once per `AsyncReset` it accepted, with
the id it was given; let the enqueued ids be group ids (not the sentinel) and let every
started checkpoint be completed at the end (the doubles owe nothing).  Then the run succeeds
and the dirty lists passed to `checkpointHandler->Start` are, in order, those of the enqueued
ids: the calls of the dirty-page index, gate and handler are exactly the `StartCheckpoint`
block of each enqueued id in enqueue order. -/
theorem C2_fifo_order (c : Collaborators) (ops : List Op)
    (hconf : conforms c .idle (Init new).1 ops = true)
    (hids : ∀ g ∈ addedIds ops, g ≠ NONE)
    (hdone : pendingAfter c .idle (Init new).1 ops = .idle) :
    ∃ s tr, run c ops (Init new).1 = some (s, tr) ∧
      starts tr = (addedIds ops).map c.GetDirtyList ∧
      dirtyQueries tr = addedIds ops ∧
      checkpointCalls tr = (addedIds ops).flatMap (startCalls c) := by
  obtain ⟨tr, hrun, hdq, hcp, hst, _⟩ := run_completed c ops hconf hids hdone
  exact ⟨new, tr, hrun, hst, hdq, hcp⟩

/-- C2 witness: `Add 3; Add 4; completed; reset(3); completed; reset(4)`. -/
theorem C2_fifo_order_witness :
    ∃ s tr, run demo [.AddToFullLogGroup 3 0, .AddToFullLogGroup 4 0, .CheckpointCompleted 0,
        .LogGroupResetCompleted 3 0, .CheckpointCompleted 0, .LogGroupResetCompleted 4 0]
        (Init new).1 = some (s, tr) ∧
      starts tr = [3, 4].map demo.GetDirtyList ∧
      dirtyQueries tr = [3, 4] ∧
      checkpointCalls tr = [3, 4].flatMap (startCalls demo) :=
  C2_fifo_order demo [.AddToFullLogGroup 3 0, .AddToFullLogGroup 4 0, .CheckpointCompleted 0,
    .LogGroupResetCompleted 3 0, .CheckpointCompleted 0, .LogGroupResetCompleted 4 0]
    (by decide) (by decide) (by decide)

/-- C3 as stated fails: `Add 1; Reset; Add 2` starts the checkpoint of group 2 although the
checkpoint of group 1 was started and its reset-completion callback never fired. -/
theorem C3_reset_counterexample :
    run demo [.AddToFullLogGroup 1 0, .Reset, .AddToFullLogGroup 2 0] (Init new).1
      = some (⟨2, [], false⟩, startCalls demo 1 ++ startCalls demo 2) ∧
    exclusive (startCalls demo 1 ++ startCalls demo 2) = false := by
  decide

/-- C3 amended: in every sequential schedule from the post-Init state in which
`CheckpointCompleted` is called once per accepted `Start`, the reset-completion callback fires
once per accepted `AsyncReset` with the id it was given, and `Reset` is called only while no
checkpoint is active (whatever the collaborators return, and with enqueued ids that are not
the sentinel), the run succeeds and no `Start` comes between the `Start` of a group and the
reset-completion notification of that group. -/
theorem C3_single_active_checkpoint (c : Collaborators) (ops : List Op)
    (hconf : conforms c .idle (Init new).1 ops = true)
    (hids : ∀ g ∈ addedIds ops, g ≠ NONE) :
    ∃ s tr, run c ops (Init new).1 = some (s, tr) ∧ exclusive tr = true := by
  obtain ⟨s1, tr, hrun, _, _, _, _, hw⟩ :=
    run_conforming c ops .idle new good_new hconf hids
  exact ⟨s1, tr, hrun, (hw ⟨none, NONE, true⟩ rfl).2⟩

/-- C3 witness: `Add 1; Add 2; completed; reset(1)` with the start of group 2 refused, then
`Add 3`. -/
theorem C3_single_active_checkpoint_witness :
    ∃ s tr, run demo [.AddToFullLogGroup 1 0, .AddToFullLogGroup 2 0, .CheckpointCompleted 0,
        .LogGroupResetCompleted 1 7, .AddToFullLogGroup 3 0] (Init new).1 = some (s, tr) ∧
      exclusive tr = true :=
  C3_single_active_checkpoint demo [.AddToFullLogGroup 1 0, .AddToFullLogGroup 2 0,
    .CheckpointCompleted 0, .LogGroupResetCompleted 1 7, .AddToFullLogGroup 3 0]
    (by decide) (by decide)

/-- C4: for a sequential schedule from the post-Init state that follows the completion
protocol (one `CheckpointCompleted` per accepted `Start`, one callback per accepted
`AsyncReset`, with the same id), enqueues pairwise distinct group ids and ends with every
started checkpoint completed, the run succeeds, the final state is the idle state with an
empty queue, the `Start` calls are those of the enqueued ids in order (one `StartCheckpoint`
block per id), the `AsyncReset` calls carry the enqueued ids in order, and every enqueued id
occurs exactly once among the started ids and exactly once among the reset ids. -/
theorem C4_each_group_once (c : Collaborators) (ops : List Op)
    (hconf : conforms c .idle (Init new).1 ops = true)
    (hids : ∀ g ∈ addedIds ops, g ≠ NONE)
    (hdistinct : (addedIds ops).Nodup)
    (hdone : pendingAfter c .idle (Init new).1 ops = .idle) :
    ∃ tr, run c ops (Init new).1 = some (⟨NONE, [], false⟩, tr) ∧
      checkpointCalls tr = (addedIds ops).flatMap (startCalls c) ∧
      starts tr = (dirtyQueries tr).map c.GetDirtyList ∧
      (starts tr).length = (addedIds ops).length ∧
      (∀ g ∈ addedIds ops, (dirtyQueries tr).count g = 1 ∧ (resets tr).count g = 1) := by
  obtain ⟨tr, hrun, hdq, hcp, hst, hrs⟩ := run_completed c ops hconf hids hdone
  refine ⟨tr, hrun, hcp, ?_, ?_, ?_⟩
  · rw [hst, hdq]
  · rw [hst, List.length_map]
  · intro g hg
    rw [hdq, hrs]
    exact ⟨List.count_eq_one_of_mem hdistinct hg, List.count_eq_one_of_mem hdistinct hg⟩

/-- C4 witness: `Add 3; Add 4; completed; reset(3); Add 5; completed; reset(4); completed;
reset(5)`. -/
theorem C4_each_group_once_witness :
    ∃ tr, run demo [.AddToFullLogGroup 3 0, .AddToFullLogGroup 4 0, .CheckpointCompleted 0,
        .LogGroupResetCompleted 3 0, .AddToFullLogGroup 5 0, .CheckpointCompleted 0,
        .LogGroupResetCompleted 4 0, .CheckpointCompleted 0, .LogGroupResetCompleted 5 0]
        (Init new).1 = some (⟨NONE, [], false⟩, tr) ∧
      checkpointCalls tr = [3, 4, 5].flatMap (startCalls demo) ∧
      starts tr = (dirtyQueries tr).map demo.GetDirtyList ∧
      (starts tr).length = [3, 4, 5].length ∧
      (∀ g ∈ [3, 4, 5], (dirtyQueries tr).count g = 1 ∧ (resets tr).count g = 1) :=
  C4_each_group_once demo [.AddToFullLogGroup 3 0, .AddToFullLogGroup 4 0,
    .CheckpointCompleted 0, .LogGroupResetCompleted 3 0, .AddToFullLogGroup 5 0,
    .CheckpointCompleted 0, .LogGroupResetCompleted 4 0, .CheckpointCompleted 0,
    .LogGroupResetCompleted 5 0] (by decide) (by decide) (by decide) (by decide)

/-- C5 as stated fails when the admission flag is set: with flushing group 3, queue `[4]` and
the flag `true`, the callback for 3 only notifies; group 4 stays queued and is not started. -/
theorem C5_flag_counterexample :
    _LogGroupResetCompleted demo 0 3 ⟨3, [4], true⟩
      = some (⟨NONE, [4], true⟩, [Call.NotifyLogBufferReseted 3]) := by
  decide

/-- C5 amended: with the admission flag clear, flushing group `g` and queue `h :: t` whose
front `h` is a group id (not the sentinel), the reset-completion callback for `g` emits
`NotifyLogBufferReseted g` and then the `StartCheckpoint` block of `h` (so the notifier and
handler calls are `Notify g` followed by `Start (dirty list of h)`), ending with flushing
group `h` and queue `t`; with an empty queue the only call is `Notify g` and the flushing
group ends as the sentinel.  Scenario: `Add 3; Add 4; completed; reset(3)`. -/
theorem C5_reset_completion_drains (c : Collaborators) (ret g h : Int) (t : List Int)
    (hh : h ≠ NONE) :
    _LogGroupResetCompleted c ret g ⟨g, h :: t, false⟩
      = some (⟨h, t, false⟩,
          [Call.NotifyLogBufferReseted g, Call.GetDirtyList h,
            Call.GetCheckpointExecutionApproval, Call.Start (c.GetDirtyList h),
            Call.AllowCallbackExecution]) ∧
    (∀ b : Bool, _LogGroupResetCompleted c ret g ⟨g, [], b⟩
      = some (⟨NONE, [], b⟩, [Call.NotifyLogBufferReseted g])) ∧
    run c [.AddToFullLogGroup 3 0, .AddToFullLogGroup 4 0, .CheckpointCompleted 0,
        .LogGroupResetCompleted 3 ret] (Init new).1
      = some (⟨4, [], false⟩,
          startCalls c 3 ++ [Call.AsyncReset 3, Call.NotifyLogBufferReseted 3,
            Call.GetDirtyList 4, Call.GetCheckpointExecutionApproval,
            Call.Start (c.GetDirtyList 4), Call.AllowCallbackExecution]) := by
  refine ⟨?_, ?_, ?_⟩
  · simp [_LogGroupResetCompleted, _ResetFlushingLogGroup,
      flushNext_start c ret (-1) h t rfl hh, startCalls]
  · intro b
    simp [_LogGroupResetCompleted, _ResetFlushingLogGroup, flushNext_empty, NONE]
  · have h3 : step c (.AddToFullLogGroup 3 0) (Init new).1
        = some (⟨3, [], false⟩, startCalls c 3) :=
      flushNext_start c 0 (-1) 3 [] rfl (by decide)
    have h4 : step c (.AddToFullLogGroup 4 0) ⟨3, [], false⟩ = some (⟨3, [4], false⟩, []) :=
      flushNext_busy c 0 ⟨3, [4], false⟩ (by decide)
    have hc : step c (.CheckpointCompleted 0) ⟨3, [4], false⟩
        = some (⟨3, [4], false⟩, [Call.AsyncReset 3]) := by
      simp [step, CheckpointCompleted]
    have hr : step c (.LogGroupResetCompleted 3 ret) ⟨3, [4], false⟩
        = some (⟨4, [], false⟩, Call.NotifyLogBufferReseted 3 :: startCalls c 4) := by
      simp [step, _LogGroupResetCompleted, _ResetFlushingLogGroup,
        flushNext_start c ret (-1) 4 [] rfl (by decide)]
    simp [run, h3, h4, hc, hr, startCalls]

/-- C5 witness: flushing group 3, queue `[4, 5]`. -/
theorem C5_reset_completion_drains_witness :
    _LogGroupResetCompleted demo 0 3 ⟨3, 4 :: [5], false⟩
      = some (⟨4, [5], false⟩,
          [Call.NotifyLogBufferReseted 3, Call.GetDirtyList 4,
            Call.GetCheckpointExecutionApproval, Call.Start (demo.GetDirtyList 4),
            Call.AllowCallbackExecution]) ∧
    (∀ b : Bool, _LogGroupResetCompleted demo 0 3 ⟨3, [], b⟩
      = some (⟨NONE, [], b⟩, [Call.NotifyLogBufferReseted 3])) ∧
    run demo [.AddToFullLogGroup 3 0, .AddToFullLogGroup 4 0, .CheckpointCompleted 0,
        .LogGroupResetCompleted 3 0] (Init new).1
      = some (⟨4, [], false⟩,
          startCalls demo 3 ++ [Call.AsyncReset 3, Call.NotifyLogBufferReseted 3,
            Call.GetDirtyList 4, Call.GetCheckpointExecutionApproval,
            Call.Start (demo.GetDirtyList 4), Call.AllowCallbackExecution]) :=
  C5_reset_completion_drains demo 0 3 4 [5] (by decide)

/-- C6: while a group is flushing (`flushingLogGroupId ≠ NONE`), whatever the queue, the
admission flag and the id `g`, `AddToFullLogGroup g` succeeds, appends `g` at the back of the
queue, leaves the flushing group and the flag unchanged and makes no collaborator call.  The
`Start` for `g` comes from the completion path: when `g` (a group id) is alone in the queue,
the reset-completion callback of the flushing group notifies and then starts `g`. -/
theorem C6_add_while_flushing (c : Collaborators) (ret f g : Int) (q : List Int) (b : Bool)
    (hf : f ≠ NONE) :
    AddToFullLogGroup c ret g ⟨f, q, b⟩ = some (⟨f, q ++ [g], b⟩, []) ∧
    (g ≠ NONE → ∀ ret2 : Int, _LogGroupResetCompleted c ret2 f ⟨f, [] ++ [g], false⟩
      = some (⟨g, [], false⟩, Call.NotifyLogBufferReseted f :: startCalls c g)) := by
  refine ⟨flushNext_busy c ret ⟨f, q ++ [g], b⟩ hf, ?_⟩
  intro hg ret2
  simp [_LogGroupResetCompleted, _ResetFlushingLogGroup,
    flushNext_start c ret2 (-1) g [] rfl hg]

/-- C6 witness: flushing group 3, queue `[4]`, new id 5. -/
theorem C6_add_while_flushing_witness :
    AddToFullLogGroup demo 0 5 ⟨3, [4], false⟩ = some (⟨3, [4] ++ [5], false⟩, []) ∧
    ((5 : Int) ≠ NONE → ∀ ret2 : Int, _LogGroupResetCompleted demo ret2 3 ⟨3, [] ++ [5], false⟩
      = some (⟨5, [], false⟩, Call.NotifyLogBufferReseted 3 :: startCalls demo 5)) :=
  C6_add_while_flushing demo 0 3 5 [4] false (by decide)

/-- C7 as stated fails at the limit of the `int` result: with a group flushing and
`2^31 - 1` queued entries the function returns `-2^31`, not the queue length plus 1. -/
theorem C7_int_range_counterexample :
    (GetNumFullLogGroups ⟨0, List.replicate 2147483647 0, false⟩).1 = -2147483648 ∧
    (List.replicate 2147483647 (0 : Int)).length + 1 = 2147483648 :=
  ⟨getNum_wraps 0 (List.replicate 2147483647 0) false (by decide)
      (List.length_replicate 2147483647 0),
    congrArg (fun n => n + 1) (List.length_replicate 2147483647 (0 : Int))⟩

/-- C7 amended: for every releaser state whose queue length plus 1 fits the 32-bit `int`
result (is below `2^31`), `GetNumFullLogGroups` returns the queue length plus 1 when a group
is flushing and the queue length alone when none is, and leaves the releaser unchanged.
After `Add 3; Add 4` from the post-Init state, before any completion, it returns 2. -/
theorem C7_num_full_log_groups (s : LogGroupReleaser)
    (hfit : s.fullLogGroup.length + 1 < 2 ^ 31) :
    (s.flushingLogGroupId ≠ NONE →
      GetNumFullLogGroups s = ((s.fullLogGroup.length : Int) + 1, s)) ∧
    (s.flushingLogGroupId = NONE →
      GetNumFullLogGroups s = ((s.fullLogGroup.length : Int), s)) ∧
    (∀ c : Collaborators,
      (run c [.AddToFullLogGroup 3 0, .AddToFullLogGroup 4 0] (Init new).1).map
        (fun r => (GetNumFullLogGroups r.1).1) = some 2) := by
  have h64 : (2 : Nat) ^ 31 < 2 ^ 64 := by norm_num
  refine ⟨?_, ?_, ?_⟩
  · intro hf
    have hf1 : s.flushingLogGroupId ≠ -1 := hf
    have h1 : (s.fullLogGroup.length + 1) % 2 ^ 64 = s.fullLogGroup.length + 1 :=
      Nat.mod_eq_of_lt (by omega)
    have h2 : (s.fullLogGroup.length + 1 + 2 ^ 31) % 2 ^ 32
        = s.fullLogGroup.length + 1 + 2 ^ 31 :=
      Nat.mod_eq_of_lt (by omega)
    simp only [GetNumFullLogGroups, toInt, h1, h2]
    simp [hf1]
  · intro hf
    have hf1 : s.flushingLogGroupId = -1 := hf
    have h2 : (s.fullLogGroup.length + 2 ^ 31) % 2 ^ 32 = s.fullLogGroup.length + 2 ^ 31 :=
      Nat.mod_eq_of_lt (by omega)
    simp only [GetNumFullLogGroups, toInt, h2]
    simp [hf1]
  · intro c
    have h3 : step c (.AddToFullLogGroup 3 0) (Init new).1
        = some (⟨3, [], false⟩, startCalls c 3) :=
      flushNext_start c 0 (-1) 3 [] rfl (by decide)
    have h4 : step c (.AddToFullLogGroup 4 0) ⟨3, [], false⟩ = some (⟨3, [4], false⟩, []) :=
      flushNext_busy c 0 ⟨3, [4], false⟩ (by decide)
    simp only [run, h3, h4, Option.map_some']
    decide

/-- C7 witness: flushing group 3 with queue `[4]`. -/
theorem C7_num_full_log_groups_witness :
    ((3 : Int) ≠ NONE → GetNumFullLogGroups ⟨3, [4], false⟩ = ((([4] : List Int).length : Int) + 1,
        ⟨3, [4], false⟩)) ∧
    ((3 : Int) = NONE → GetNumFullLogGroups ⟨3, [4], false⟩ = ((([4] : List Int).length : Int),
        ⟨3, [4], false⟩)) ∧
    (∀ c : Collaborators,
      (run c [.AddToFullLogGroup 3 0, .AddToFullLogGroup 4 0] (Init new).1).map
        (fun r => (GetNumFullLogGroups r.1).1) = some 2) :=
  C7_num_full_log_groups ⟨3, [4], false⟩ (by decide)

/-- C8: when `AddToFullLogGroup g` is called on the idle releaser (empty queue) and the
handler answers the `Start` with a non-zero status `r`, then after any number of further
`AddToFullLogGroup h` calls (whatever the handler would answer) the releaser has made exactly
the `StartCheckpoint` calls of `g` and nothing else: no `AsyncReset`, a single `Start` (the one
for `g`); the flushing group is still `g` and the later ids are queued in order. -/
theorem C8_start_failure_halts (c : Collaborators) (g r : Int) (hs : List (Int × Int))
    (hg : g ≠ NONE) (_hr : r ≠ 0) :
    run c (.AddToFullLogGroup g r :: hs.map fun h => Op.AddToFullLogGroup h.1 h.2)
        ⟨NONE, [], false⟩
      = some (⟨g, hs.map Prod.fst, false⟩,
          [Call.GetDirtyList g, Call.GetCheckpointExecutionApproval,
            Call.Start (c.GetDirtyList g), Call.AllowCallbackExecution]) ∧
    resets [Call.GetDirtyList g, Call.GetCheckpointExecutionApproval,
      Call.Start (c.GetDirtyList g), Call.AllowCallbackExecution] = [] ∧
    starts [Call.GetDirtyList g, Call.GetCheckpointExecutionApproval,
      Call.Start (c.GetDirtyList g), Call.AllowCallbackExecution] = [c.GetDirtyList g] := by
  have h1 : step c (.AddToFullLogGroup g r) ⟨NONE, [], false⟩
      = some (⟨g, [], false⟩, startCalls c g) :=
    flushNext_start c r NONE g [] rfl hg
  refine ⟨?_, ?_, ?_⟩
  · simp [run, h1, run_adds_busy c g hg hs [] false, startCalls]
  · simp [resets]
  · simp [starts]

/-- C8 witness: `Add 2` with `Start` returning 5, then `Add 3`. -/
theorem C8_start_failure_halts_witness :
    run demo [.AddToFullLogGroup 2 5, .AddToFullLogGroup 3 0] ⟨NONE, [], false⟩
      = some (⟨2, [3], false⟩,
          [Call.GetDirtyList 2, Call.GetCheckpointExecutionApproval,
            Call.Start (demo.GetDirtyList 2), Call.AllowCallbackExecution]) ∧
    resets [Call.GetDirtyList 2, Call.GetCheckpointExecutionApproval,
      Call.Start (demo.GetDirtyList 2), Call.AllowCallbackExecution] = [] ∧
    starts [Call.GetDirtyList 2, Call.GetCheckpointExecutionApproval,
      Call.Start (demo.GetDirtyList 2), Call.AllowCallbackExecution] = [demo.GetDirtyList 2] :=
  C8_start_failure_halts demo 2 5 [(3, 0)] (by decide) (by decide)

/-- C9 on the code: the status returned by `checkpointHandler->Start` is ignored.  With
`Start` returning 5 on `AddToFullLogGroup 2` from the post-Init state, the resulting state and
emitted calls are those of a `Start` returning 0, no notification is emitted, and
`StartCheckpoint` returns 0; in general `StartCheckpoint`, `AddToFullLogGroup` and the
reset-completion callback do not depend on that status. -/
theorem C9_start_status_ignored :
    AddToFullLogGroup demo 5 2 (Init new).1 = AddToFullLogGroup demo 0 2 (Init new).1 ∧
    AddToFullLogGroup demo 5 2 (Init new).1
      = some (⟨2, [], false⟩,
          [Call.GetDirtyList 2, Call.GetCheckpointExecutionApproval,
            Call.Start (demo.GetDirtyList 2), Call.AllowCallbackExecution]) ∧
    (StartCheckpoint demo 5 ⟨2, [], false⟩).1 = 0 ∧
    (∀ (c : Collaborators) (r : Int) (s : LogGroupReleaser),
      StartCheckpoint c r s = StartCheckpoint c 0 s ∧
      (∀ g, AddToFullLogGroup c r g s = AddToFullLogGroup c 0 g s) ∧
      (∀ g, _LogGroupResetCompleted c r g s = _LogGroupResetCompleted c 0 g s)) := by
  have hsc : ∀ (c : Collaborators) (r : Int) (s : LogGroupReleaser),
      StartCheckpoint c r s = StartCheckpoint c 0 s := by
    intro c r s
    simp [StartCheckpoint]
  have hfl : ∀ (c : Collaborators) (r : Int) (s : LogGroupReleaser),
      _FlushNextLogGroup c r s = _FlushNextLogGroup c 0 s := by
    intro c r s
    simp only [_FlushNextLogGroup, hsc c r]
  refine ⟨by decide, by decide, by decide, ?_⟩
  intro c r s
  refine ⟨hsc c r s, ?_, ?_⟩
  · intro g
    simp only [AddToFullLogGroup, hfl c r]
  · intro g
    simp only [_LogGroupResetCompleted, hfl c r]

/-- C10: for every state with a flushing group `g ≠ NONE` and every non-zero status returned
by `logBuffer->AsyncReset`, `CheckpointCompleted` succeeds, leaves the flushing group, the
queue and the flag unchanged, and its only call is `AsyncReset g`: no notification and no
checkpoint start.  Scenario: `Add 1`, then `CheckpointCompleted` with `AsyncReset` returning 9
leaves flushing group 1. -/
theorem C10_reset_submit_failure (c : Collaborators) (r g : Int) (q : List Int) (b : Bool)
    (hg : g ≠ NONE) (_hr : r ≠ 0) :
    CheckpointCompleted r ⟨g, q, b⟩ = some (⟨g, q, b⟩, [Call.AsyncReset g]) ∧
    notifies [Call.AsyncReset g] = [] ∧ starts [Call.AsyncReset g] = [] ∧
    run c [.AddToFullLogGroup 1 0, .CheckpointCompleted 9] (Init new).1
      = some (⟨1, [], false⟩, startCalls c 1 ++ [Call.AsyncReset 1]) := by
  have hg1 : g ≠ -1 := hg
  refine ⟨?_, ?_, ?_, ?_⟩
  · simp [CheckpointCompleted, hg1]
  · simp [notifies]
  · simp [starts]
  · have h1 : step c (.AddToFullLogGroup 1 0) (Init new).1
        = some (⟨1, [], false⟩, startCalls c 1) :=
      flushNext_start c 0 (-1) 1 [] rfl (by decide)
    have h2 : step c (.CheckpointCompleted 9) ⟨1, [], false⟩
        = some (⟨1, [], false⟩, [Call.AsyncReset 1]) := by
      simp [step, CheckpointCompleted]
    simp [run, h1, h2]

/-- C10 witness: flushing group 1, empty queue, `AsyncReset` returning 9. -/
theorem C10_reset_submit_failure_witness :
    CheckpointCompleted 9 ⟨1, [], false⟩ = some (⟨1, [], false⟩, [Call.AsyncReset 1]) ∧
    notifies [Call.AsyncReset 1] = [] ∧ starts [Call.AsyncReset 1] = [] ∧
    run demo [.AddToFullLogGroup 1 0, .CheckpointCompleted 9] (Init new).1
      = some (⟨1, [], false⟩, startCalls demo 1 ++ [Call.AsyncReset 1]) :=
  C10_reset_submit_failure demo 9 1 [] false (by decide) (by decide)

/-- C11: for every state with a flushing group `g ≠ NONE`, `CheckpointCompleted` succeeds, its
calls are exactly one `AsyncReset g` (whose callback is the reset-completion handler), and the
flushing group, the queue and the flag are unchanged, whatever `AsyncReset` returns; with
`flushingLogGroupId = NONE` the assertion fails and nothing is issued. -/
theorem C11_checkpoint_completed_resets (r g : Int) (q : List Int) (b : Bool)
    (hg : g ≠ NONE) :
    CheckpointCompleted r ⟨g, q, b⟩ = some (⟨g, q, b⟩, [Call.AsyncReset g]) ∧
    resets [Call.AsyncReset g] = [g] ∧
    CheckpointCompleted r ⟨NONE, q, b⟩ = none := by
  have hg1 : g ≠ -1 := hg
  refine ⟨?_, ?_, ?_⟩
  · simp [CheckpointCompleted, hg1]
  · simp [resets]
  · simp [CheckpointCompleted, NONE]

/-- C11 witness: flushing group 3, queue `[4]`. -/
theorem C11_checkpoint_completed_resets_witness :
    CheckpointCompleted 0 ⟨3, [4], false⟩ = some (⟨3, [4], false⟩, [Call.AsyncReset 3]) ∧
    resets [Call.AsyncReset 3] = [3] ∧
    CheckpointCompleted 0 ⟨NONE, [4], false⟩ = none :=
  C11_checkpoint_completed_resets 0 3 [4] false (by decide)

/-- C12 as stated fails: with flushing group 3 and queue `[4]`, `Reset` does not fail an
assertion; it returns the state with flushing group `NONE` and an empty queue. -/
theorem C12_reset_counterexample :
    step demo .Reset ⟨3, [4], false⟩ = some (⟨NONE, [], false⟩, []) ∧
    Reset ⟨3, [4], false⟩ = ⟨NONE, [], false⟩ := by
  decide

/-- C12 amended: `Reset` has no precondition check; in every state, also with a flushing
group, it succeeds, clears the queue, sets the flushing group to `NONE`, keeps the flag and
makes no call.  Whenever one operation takes the flushing group from a group id to `NONE`,
the operation is either `Reset` or the reset-completion callback, and the callback's first
call is the notification carrying the callback's id. -/
theorem C12_flushing_cleared_only_by (c : Collaborators) (op : Op)
    (s s1 : LogGroupReleaser) (cs : List Call)
    (hstep : step c op s = some (s1, cs))
    (hbefore : s.flushingLogGroupId ≠ NONE) (hafter : s1.flushingLogGroupId = NONE) :
    step c .Reset s = some (⟨NONE, [], s.checkpointTriggerInProgress⟩, []) ∧
    (op = .Reset ∨
      ∃ g r, op = .LogGroupResetCompleted g r ∧
        cs.head? = some (Call.NotifyLogBufferReseted g)) := by
  have hb : s.flushingLogGroupId ≠ -1 := hbefore
  have ha : s1.flushingLogGroupId = -1 := hafter
  refine ⟨by simp [step, Reset, NONE], ?_⟩
  cases op with
  | AddToFullLogGroup g r =>
    exfalso
    have h := flushNext_busy c r (_AddToFullLogGroupList g s) hb
    simp only [step, AddToFullLogGroup, h, Option.some.injEq, Prod.mk.injEq] at hstep
    rw [← hstep.1] at ha
    exact hb ha
  | CheckpointCompleted r =>
    exfalso
    by_cases hr : r = 0 <;>
      simp only [step, CheckpointCompleted, hr, hb, bne_iff_ne, ne_eq, not_false_eq_true,
        not_true_eq_false, if_true, if_false, ite_true, ite_false, Option.some.injEq,
        Prod.mk.injEq] at hstep <;>
      (rw [← hstep.1] at ha; exact hb ha)
  | LogGroupResetCompleted g r =>
    right
    refine ⟨g, r, rfl, ?_⟩
    simp only [step, _LogGroupResetCompleted] at hstep
    cases hfl : _FlushNextLogGroup c r (_ResetFlushingLogGroup s) with
    | none => simp [hfl] at hstep
    | some res =>
      obtain ⟨s2, calls⟩ := res
      simp only [hfl, Option.some.injEq, Prod.mk.injEq] at hstep
      rw [← hstep.2]
      rfl
  | Reset => exact Or.inl rfl

/-- C12 witness: the callback for group 3 with an empty queue. -/
theorem C12_flushing_cleared_only_by_witness :
    step demo .Reset ⟨3, [], false⟩ = some (⟨NONE, [], false⟩, []) ∧
    (Op.LogGroupResetCompleted 3 0 = .Reset ∨
      ∃ g r, Op.LogGroupResetCompleted 3 0 = .LogGroupResetCompleted g r ∧
        [Call.NotifyLogBufferReseted 3].head? = some (Call.NotifyLogBufferReseted g)) :=
  C12_flushing_cleared_only_by demo (.LogGroupResetCompleted 3 0) ⟨3, [], false⟩
    ⟨NONE, [], false⟩ [Call.NotifyLogBufferReseted 3] (by decide) (by decide) (by decide)

/-! ### Shape of the calls of one operation -/

theorem flush_calls (c : Collaborators) (r : Int) (s s1 : LogGroupReleaser) (cs : List Call)
    (h : _FlushNextLogGroup c r s = some (s1, cs)) :
    cs = [] ∨ cs = startCalls c s1.flushingLogGroupId := by
  obtain ⟨f, q, b⟩ := s
  by_cases hf : f = -1
  · subst hf
    cases q with
    | nil =>
      rw [flushNext_empty] at h
      simp only [Option.some.injEq, Prod.mk.injEq] at h
      exact Or.inl h.2.symm
    | cons hd t =>
      cases b with
      | true =>
        simp [_FlushNextLogGroup, _HasFullLogGroup] at h
        exact Or.inl h.2
      | false =>
        by_cases hh : hd = -1
        · subst hh
          simp [_FlushNextLogGroup, _HasFullLogGroup, _UpdateFlushingLogGroup,
            _PopFullLogGroup] at h
        · rw [flushNext_start c r (-1) hd t rfl hh] at h
          simp only [Option.some.injEq, Prod.mk.injEq] at h
          right
          rw [← h.2, ← h.1]
  · rw [flushNext_busy c r ⟨f, q, b⟩ hf] at h
    simp only [Option.some.injEq, Prod.mk.injEq] at h
    exact Or.inl h.2.symm

theorem step_shape (c : Collaborators) (op : Op) (s s1 : LogGroupReleaser) (cs : List Call)
    (h : step c op s = some (s1, cs)) :
    match op with
    | .AddToFullLogGroup _ _ => cs = [] ∨ cs = startCalls c s1.flushingLogGroupId
    | .CheckpointCompleted _ => cs = [Call.AsyncReset s.flushingLogGroupId]
    | .LogGroupResetCompleted g _ =>
      cs = [Call.NotifyLogBufferReseted g] ∨
        cs = Call.NotifyLogBufferReseted g :: startCalls c s1.flushingLogGroupId
    | .Reset => cs = [] := by
  cases op with
  | AddToFullLogGroup g r =>
    exact flush_calls c r _ s1 cs h
  | CheckpointCompleted r =>
    simp only [step, CheckpointCompleted] at h
    by_cases hf : s.flushingLogGroupId = -1
    · simp [hf] at h
    · by_cases hr : r = 0 <;> simp [hf, hr] at h <;> exact h.2.symm
  | LogGroupResetCompleted g r =>
    simp only [step, _LogGroupResetCompleted] at h
    cases hfl : _FlushNextLogGroup c r (_ResetFlushingLogGroup s) with
    | none => simp [hfl] at h
    | some res =>
      obtain ⟨s2, calls⟩ := res
      simp only [hfl, Option.some.injEq, Prod.mk.injEq] at h
      obtain ⟨hs, hc⟩ := h
      subst hs hc
      rcases flush_calls c r _ s2 calls hfl with h0 | h0
      · left; rw [h0]
      · right; rw [h0]
  | Reset =>
    simp only [step, Option.some.injEq, Prod.mk.injEq] at h
    exact h.2.symm

/-- The calls of one operation are whole `StartCheckpoint` blocks around other calls. -/
theorem step_blocks (c : Collaborators) (op : Op) (s s1 : LogGroupReleaser) (cs : List Call)
    (h : step c op s = some (s1, cs)) :
    checkpointCalls cs = (dirtyQueries cs).flatMap (startCalls c) ∧
      cs.count Call.GetCheckpointExecutionApproval = cs.count Call.AllowCallbackExecution ∧
      cs.count Call.GetCheckpointExecutionApproval = (starts cs).length := by
  have hshape := step_shape c op s s1 cs h
  cases op with
  | AddToFullLogGroup g r =>
    rcases hshape with h0 | h0 <;> rw [h0] <;>
      simp [checkpointCalls, dirtyQueries, starts, startCalls, Call.isCheckpointCall]
  | CheckpointCompleted r =>
    simp only at hshape
    rw [hshape]
    simp [checkpointCalls, dirtyQueries, starts, Call.isCheckpointCall]
  | LogGroupResetCompleted g r =>
    rcases hshape with h0 | h0 <;> rw [h0] <;>
      simp [checkpointCalls, dirtyQueries, starts, startCalls, Call.isCheckpointCall]
  | Reset =>
    simp only at hshape
    rw [hshape]
    simp [checkpointCalls, dirtyQueries, starts]

theorem run_blocks (c : Collaborators) :
    ∀ (ops : List Op) (s s1 : LogGroupReleaser) (tr : List Call),
      run c ops s = some (s1, tr) →
      checkpointCalls tr = (dirtyQueries tr).flatMap (startCalls c) ∧
        tr.count Call.GetCheckpointExecutionApproval = tr.count Call.AllowCallbackExecution ∧
        tr.count Call.GetCheckpointExecutionApproval = (starts tr).length := by
  intro ops
  induction ops with
  | nil =>
    intro s s1 tr h
    simp only [run, Option.some.injEq, Prod.mk.injEq] at h
    rw [← h.2]
    simp [checkpointCalls, dirtyQueries, starts]
  | cons op ops ih =>
    intro s s1 tr h
    simp only [run] at h
    cases hst : step c op s with
    | none => simp [hst] at h
    | some res =>
      obtain ⟨s2, cs⟩ := res
      simp only [hst] at h
      cases hrun : run c ops s2 with
      | none => simp [hrun] at h
      | some res2 =>
        obtain ⟨s3, tr2⟩ := res2
        simp only [hrun, Option.some.injEq, Prod.mk.injEq] at h
        obtain ⟨a1, a2, a3⟩ := step_blocks c op s s2 cs hst
        obtain ⟨b1, b2, b3⟩ := ih s2 s3 tr2 hrun
        rw [← h.2]
        have h1 : dirtyQueries (cs ++ tr2) = dirtyQueries cs ++ dirtyQueries tr2 := by
          simp [dirtyQueries]
        have h2 : checkpointCalls (cs ++ tr2) = checkpointCalls cs ++ checkpointCalls tr2 := by
          simp [checkpointCalls]
        have h3 : starts (cs ++ tr2) = starts cs ++ starts tr2 := by
          simp [starts]
        refine ⟨?_, ?_, ?_⟩
        · rw [h1, h2, a1, b1, List.flatMap_append]
        · rw [List.count_append, List.count_append, a2, b2]
        · rw [List.count_append, h3, List.length_append, a3, b3]

/-- C13: every execution of `StartCheckpoint`, whatever the handler returns, leaves the state
unchanged, returns 0 and emits exactly `GetDirtyList(flushingLogGroupId)`,
`GetCheckpointExecutionApproval()`, `Start(that dirty list)`, `AllowCallbackExecution()`, in
this order.  In the call trace of every run (any operations, from any state) the gate and
handler calls are a sequence of such blocks, one per `GetDirtyList`, and the numbers of
approvals, of releases and of `Start` calls are equal. -/
theorem C13_gate_balanced (c : Collaborators) (ops : List Op) (s s1 : LogGroupReleaser)
    (tr : List Call) (hrun : run c ops s = some (s1, tr)) :
    (∀ (ret : Int) (s0 : LogGroupReleaser), StartCheckpoint c ret s0
      = (0, s0, [Call.GetDirtyList s0.flushingLogGroupId, Call.GetCheckpointExecutionApproval,
          Call.Start (c.GetDirtyList s0.flushingLogGroupId), Call.AllowCallbackExecution])) ∧
    checkpointCalls tr = (dirtyQueries tr).flatMap (startCalls c) ∧
    tr.count Call.GetCheckpointExecutionApproval = tr.count Call.AllowCallbackExecution ∧
    tr.count Call.GetCheckpointExecutionApproval = (starts tr).length := by
  refine ⟨?_, run_blocks c ops s s1 tr hrun⟩
  intro ret s0
  by_cases hr : ret = 0 <;> simp [StartCheckpoint, hr]

/-- C13 witness: `Add 2` with a refused start, then `Add 3`. -/
theorem C13_gate_balanced_witness :
    (∀ (ret : Int) (s0 : LogGroupReleaser), StartCheckpoint demo ret s0
      = (0, s0, [Call.GetDirtyList s0.flushingLogGroupId, Call.GetCheckpointExecutionApproval,
          Call.Start (demo.GetDirtyList s0.flushingLogGroupId),
          Call.AllowCallbackExecution])) ∧
    checkpointCalls (startCalls demo 2) = (dirtyQueries (startCalls demo 2)).flatMap
      (startCalls demo) ∧
    (startCalls demo 2).count Call.GetCheckpointExecutionApproval
      = (startCalls demo 2).count Call.AllowCallbackExecution ∧
    (startCalls demo 2).count Call.GetCheckpointExecutionApproval
      = (starts (startCalls demo 2)).length :=
  C13_gate_balanced demo [.AddToFullLogGroup 2 5, .AddToFullLogGroup 3 0] new ⟨2, [3], false⟩
    (startCalls demo 2) (by decide)

theorem resetlog_startCalls (c : Collaborators) (h : Int) (w : ResetLog) :
    (startCalls c h).foldl ResetLog.see w = w := by
  simp [startCalls, ResetLog.see]

theorem next_startCalls (c : Collaborators) (p : Pending) (op : Op) (h : Int) (g : Int) :
    (startCalls c h).foldl (observe op.ret) p ≠ .resetting g := by
  by_cases hr : op.ret = 0 <;> simp [startCalls, observe, hr]

theorem step_resetlog (c : Collaborators) (p : Pending) (op : Op) (s s1 : LogGroupReleaser)
    (cs : List Call) (hadm : admissible p op = true) (hstep : step c op s = some (s1, cs))
    (w : ResetLog) (hinv : ∀ g, p = .resetting g → g ∈ w.outstanding) :
    (cs.foldl ResetLog.see w).ok = w.ok ∧
      ∀ g, p.next op cs = .resetting g → g ∈ (cs.foldl ResetLog.see w).outstanding := by
  have hshape := step_shape c op s s1 cs hstep
  cases op with
  | AddToFullLogGroup g0 r =>
    rcases hshape with h0 | h0
    · subst h0
      have hn : p.next (.AddToFullLogGroup g0 r) [] = p := by cases p <;> rfl
      rw [hn]
      exact ⟨rfl, hinv⟩
    · rw [h0, resetlog_startCalls]
      refine ⟨rfl, ?_⟩
      intro g hg
      exact absurd hg (next_startCalls c _ _ _ g)
  | CheckpointCompleted r =>
    simp only at hshape
    subst hshape
    cases p <;> simp [admissible] at hadm
    refine ⟨by simp [ResetLog.see], ?_⟩
    intro g hg
    by_cases hr : r = 0
    · simp [Pending.next, consume, observe, Op.ret, hr] at hg
      simp [ResetLog.see, hg]
    · simp [Pending.next, consume, observe, Op.ret, hr] at hg
  | LogGroupResetCompleted g0 r =>
    cases p <;> simp [admissible] at hadm
    rename_i g1
    subst hadm
    have hmem : g1 ∈ w.outstanding := hinv g1 rfl
    rcases hshape with h0 | h0
    · subst h0
      refine ⟨by simp [ResetLog.see, hmem], ?_⟩
      intro g hg
      simp [Pending.next, consume, observe] at hg
    · rw [h0]
      refine ⟨by simp [ResetLog.see, hmem, resetlog_startCalls], ?_⟩
      intro g hg
      simp only [Pending.next, List.foldl_cons, consume, observe] at hg
      exact absurd hg (next_startCalls c _ _ _ g)
  | Reset =>
    simp only at hshape
    subst hshape
    cases p <;> simp [admissible] at hadm
    refine ⟨rfl, ?_⟩
    intro g hg
    simp [Pending.next, consume] at hg

theorem run_resetlog (c : Collaborators) :
    ∀ (ops : List Op) (p : Pending) (s s1 : LogGroupReleaser) (tr : List Call) (w : ResetLog),
      conforms c p s ops = true → run c ops s = some (s1, tr) →
      (∀ g, p = .resetting g → g ∈ w.outstanding) →
      (tr.foldl ResetLog.see w).ok = w.ok := by
  intro ops
  induction ops with
  | nil =>
    intro p s s1 tr w _ h _
    simp only [run, Option.some.injEq, Prod.mk.injEq] at h
    rw [← h.2]
    rfl
  | cons op ops ih =>
    intro p s s1 tr w hconf h hinv
    simp only [run] at h
    cases hst : step c op s with
    | none => simp [hst] at h
    | some res =>
      obtain ⟨s2, cs⟩ := res
      simp only [hst] at h
      cases hrun : run c ops s2 with
      | none => simp [hrun] at h
      | some res2 =>
        obtain ⟨s3, tr2⟩ := res2
        simp only [hrun, Option.some.injEq, Prod.mk.injEq] at h
        simp only [conforms, hst, Bool.and_eq_true] at hconf
        obtain ⟨hok, hinv2⟩ := step_resetlog c p op s s2 cs hconf.1 hst w hinv
        have := ih (p.next op cs) s2 s3 tr2 (cs.foldl ResetLog.see w) hconf.2 hrun hinv2
        rw [← h.2, List.foldl_append, this, hok]

/-- C14: `NotifyLogBufferReseted` comes only from the reset-completion callback.  `Init`,
`Reset`, `AddToFullLogGroup`, `StartCheckpoint` and `CheckpointCompleted` emit no
notification (the getters make no call at all); each callback invocation emits exactly one
notification, carrying the callback's id.  In every sequential schedule from the post-Init
state in which the log buffer calls back once per accepted `AsyncReset` with the id it was
given (and the handler completes once per accepted `Start`), the run succeeds and every
`NotifyLogBufferReseted g` of the trace is preceded by its own `AsyncReset g`. -/
theorem C14_notify_only_after_reset (c : Collaborators) (ops : List Op)
    (hconf : conforms c .idle (Init new).1 ops = true)
    (hids : ∀ g ∈ addedIds ops, g ≠ NONE) :
    (∀ s, notifies (Init s).2 = []) ∧
    (∀ s, (step c .Reset s).map (fun r => notifies r.2) = some []) ∧
    (∀ r g s s1 cs, AddToFullLogGroup c r g s = some (s1, cs) → notifies cs = []) ∧
    (∀ r s, notifies (StartCheckpoint c r s).2.2 = []) ∧
    (∀ r s s1 cs, CheckpointCompleted r s = some (s1, cs) → notifies cs = []) ∧
    (∀ r g s s1 cs, _LogGroupResetCompleted c r g s = some (s1, cs) → notifies cs = [g]) ∧
    (∃ s tr, run c ops (Init new).1 = some (s, tr) ∧ notifiedAfterReset tr = true) := by
  refine ⟨?_, ?_, ?_, ?_, ?_, ?_, ?_⟩
  · intro s
    simp [Init, notifies]
  · intro s
    simp [step, notifies]
  · intro r g s s1 cs h
    rcases step_shape c (.AddToFullLogGroup g r) s s1 cs h with h0 | h0 <;> rw [h0] <;>
      simp [notifies, startCalls]
  · intro r s
    by_cases hr : r = 0 <;> simp [StartCheckpoint, notifies, hr]
  · intro r s s1 cs h
    have h0 := step_shape c (.CheckpointCompleted r) s s1 cs h
    simp only at h0
    rw [h0]
    simp [notifies]
  · intro r g s s1 cs h
    rcases step_shape c (.LogGroupResetCompleted g r) s s1 cs h with h0 | h0 <;> rw [h0] <;>
      simp [notifies, startCalls]
  · obtain ⟨s1, tr, hrun, _⟩ := run_conforming c ops .idle new good_new hconf hids
    refine ⟨s1, tr, hrun, ?_⟩
    exact run_resetlog c ops .idle new s1 tr ⟨[], true⟩ hconf hrun (by simp)

/-- C14 witness: `Add 3; Add 4; completed; reset(3); completed; reset(4)`. -/
theorem C14_notify_only_after_reset_witness :
    (∀ s, notifies (Init s).2 = []) ∧
    (∀ s, (step demo .Reset s).map (fun r => notifies r.2) = some []) ∧
    (∀ r g s s1 cs, AddToFullLogGroup demo r g s = some (s1, cs) → notifies cs = []) ∧
    (∀ r s, notifies (StartCheckpoint demo r s).2.2 = []) ∧
    (∀ r s s1 cs, CheckpointCompleted r s = some (s1, cs) → notifies cs = []) ∧
    (∀ r g s s1 cs, _LogGroupResetCompleted demo r g s = some (s1, cs) →
      notifies cs = [g]) ∧
    (∃ s tr, run demo [.AddToFullLogGroup 3 0, .AddToFullLogGroup 4 0, .CheckpointCompleted 0,
        .LogGroupResetCompleted 3 0, .CheckpointCompleted 0, .LogGroupResetCompleted 4 0]
        (Init new).1 = some (s, tr) ∧ notifiedAfterReset tr = true) :=
  C14_notify_only_after_reset demo [.AddToFullLogGroup 3 0, .AddToFullLogGroup 4 0,
    .CheckpointCompleted 0, .LogGroupResetCompleted 3 0, .CheckpointCompleted 0,
    .LogGroupResetCompleted 4 0] (by decide) (by decide)

/-- C15: after any sequential schedule from the post-Init state that follows the completion
protocol and ends with every started checkpoint reset-completed, `Reset` yields
`GetFlushingLogGroupId() = NONE`, `GetFullLogGroups() = []` and `GetNumFullLogGroups() = 0`,
the values observed right after `Init`. -/
theorem C15_reset_restores_post_init (c : Collaborators) (ops : List Op)
    (hconf : conforms c .idle (Init new).1 ops = true)
    (hids : ∀ g ∈ addedIds ops, g ≠ NONE)
    (hdone : pendingAfter c .idle (Init new).1 ops = .idle) :
    ∃ s tr, run c ops (Init new).1 = some (s, tr) ∧
      run c (ops ++ [.Reset]) (Init new).1 = some (Reset s, tr) ∧
      GetFlushingLogGroupId (Reset s) = NONE ∧
      GetFullLogGroups (Reset s) = [] ∧
      (GetNumFullLogGroups (Reset s)).1 = 0 ∧
      GetFlushingLogGroupId (Reset s) = GetFlushingLogGroupId (Init new).1 ∧
      GetFullLogGroups (Reset s) = GetFullLogGroups (Init new).1 ∧
      (GetNumFullLogGroups (Reset s)).1 = (GetNumFullLogGroups (Init new).1).1 := by
  obtain ⟨tr, hrun, _⟩ := run_completed c ops hconf hids hdone
  have happ : ∀ (l : List Op) (s0 s2 : LogGroupReleaser) (t : List Call),
      run c l s0 = some (s2, t) → run c (l ++ [.Reset]) s0 = some (Reset s2, t) := by
    intro l
    induction l with
    | nil =>
      intro s0 s2 t h
      simp only [run, Option.some.injEq, Prod.mk.injEq] at h
      simp [run, step, h.1, ← h.2]
    | cons op l ih =>
      intro s0 s2 t h
      simp only [run] at h
      cases hst : step c op s0 with
      | none => simp [hst] at h
      | some res =>
        obtain ⟨s3, cs⟩ := res
        simp only [hst] at h
        cases hr : run c l s3 with
        | none => simp [hr] at h
        | some res2 =>
          obtain ⟨s4, t2⟩ := res2
          simp only [hr, Option.some.injEq, Prod.mk.injEq] at h
          simp [run, hst, ih s3 s4 t2 hr, h.1, ← h.2]
  refine ⟨new, tr, hrun, happ ops _ _ _ hrun, ?_, ?_, ?_, ?_, ?_, ?_⟩ <;> decide

/-- C15 witness: `Add 3; Add 4; completed; reset(3); completed; reset(4)`. -/
theorem C15_reset_restores_post_init_witness :
    ∃ s tr, run demo [.AddToFullLogGroup 3 0, .AddToFullLogGroup 4 0, .CheckpointCompleted 0,
        .LogGroupResetCompleted 3 0, .CheckpointCompleted 0, .LogGroupResetCompleted 4 0]
        (Init new).1 = some (s, tr) ∧
      run demo ([.AddToFullLogGroup 3 0, .AddToFullLogGroup 4 0, .CheckpointCompleted 0,
        .LogGroupResetCompleted 3 0, .CheckpointCompleted 0, .LogGroupResetCompleted 4 0]
        ++ [.Reset]) (Init new).1 = some (Reset s, tr) ∧
      GetFlushingLogGroupId (Reset s) = NONE ∧
      GetFullLogGroups (Reset s) = [] ∧
      (GetNumFullLogGroups (Reset s)).1 = 0 ∧
      GetFlushingLogGroupId (Reset s) = GetFlushingLogGroupId (Init new).1 ∧
      GetFullLogGroups (Reset s) = GetFullLogGroups (Init new).1 ∧
      (GetNumFullLogGroups (Reset s)).1 = (GetNumFullLogGroups (Init new).1).1 :=
  C15_reset_restores_post_init demo [.AddToFullLogGroup 3 0, .AddToFullLogGroup 4 0,
    .CheckpointCompleted 0, .LogGroupResetCompleted 3 0, .CheckpointCompleted 0,
    .LogGroupResetCompleted 4 0] (by decide) (by decide) (by decide)

/-- C18: with an empty queue, whether a group is flushing or not and whatever the admission
flag, `_FlushNextLogGroup` succeeds, returns the state unchanged (flushing group, queue and
flag) and makes no collaborator call. -/
theorem C18_flush_empty_queue_noop (c : Collaborators) (ret : Int) (s : LogGroupReleaser)
    (hq : s.fullLogGroup = []) :
    _FlushNextLogGroup c ret s = some (s, []) := by
  obtain ⟨f, q, b⟩ := s
  simp only at hq
  subst hq
  simp [_FlushNextLogGroup, _HasFullLogGroup]

/-- C18 witness: idle releaser with an empty queue and the admission flag set. -/
theorem C18_flush_empty_queue_noop_witness :
    _FlushNextLogGroup demo 0 ⟨NONE, [], true⟩ = some (⟨NONE, [], true⟩, []) :=
  C18_flush_empty_queue_noop demo 0 ⟨NONE, [], true⟩ rfl

/-- C16: the releaser does not deduplicate.  For every state and every id `g` that is already
queued or is the flushing group, `_AddToFullLogGroupList g` appends `g` (the queue then holds
one more occurrence of `g`) and `AddToFullLogGroup g` neither fails nor rejects: while a group
is flushing, or while the admission flag is set, it returns the queue with `g` appended and
makes no call; from the idle state with the flag clear (queue of group ids) it at once pops
the front of the extended queue into the flushing group and starts it.  In every completed
protocol-following schedule from the post-Init state the number of checkpoint starts for `g`
is the number of times `g` was enqueued. -/
theorem C16_no_deduplication (c : Collaborators) (r g f : Int) (q : List Int) (b : Bool)
    (_hdup : g ∈ q ∨ g = f) :
    _AddToFullLogGroupList g ⟨f, q, b⟩ = ⟨f, q ++ [g], b⟩ ∧
    (q ++ [g]).count g = q.count g + 1 ∧
    (f ≠ NONE → AddToFullLogGroup c r g ⟨f, q, b⟩ = some (⟨f, q ++ [g], b⟩, [])) ∧
    (f = NONE → b = true →
      AddToFullLogGroup c r g ⟨f, q, b⟩ = some (⟨f, q ++ [g], true⟩, [])) ∧
    (f = NONE → b = false → (∀ x ∈ q, x ≠ NONE) → g ≠ NONE →
      ∃ h t, q ++ [g] = h :: t ∧
        AddToFullLogGroup c r g ⟨f, q, b⟩ = some (⟨h, t, false⟩, startCalls c h)) ∧
    (∀ ops : List Op, conforms c .idle (Init new).1 ops = true →
      (∀ x ∈ addedIds ops, x ≠ NONE) → pendingAfter c .idle (Init new).1 ops = .idle →
      ∃ s tr, run c ops (Init new).1 = some (s, tr) ∧
        (dirtyQueries tr).count g = (addedIds ops).count g ∧
        starts tr = (dirtyQueries tr).map c.GetDirtyList) := by
  refine ⟨rfl, ?_, ?_, ?_, ?_, ?_⟩
  · simp
  · intro hf
    exact flushNext_busy c r ⟨f, q ++ [g], b⟩ hf
  · intro hf hb
    subst hb
    cases q with
    | nil => simp [AddToFullLogGroup, _AddToFullLogGroupList, _FlushNextLogGroup,
        _HasFullLogGroup]
    | cons h t => simp [AddToFullLogGroup, _AddToFullLogGroupList, _FlushNextLogGroup,
        _HasFullLogGroup]
  · intro hf hb hq hg
    subst hb
    cases q with
    | nil => exact ⟨g, [], rfl, flushNext_start c r f g [] hf hg⟩
    | cons h t =>
      exact ⟨h, t ++ [g], rfl,
        flushNext_start c r f h (t ++ [g]) hf (hq h (List.mem_cons_self h t))⟩
  · intro ops hconf hids hdone
    obtain ⟨tr, hrun, hdq, _, hst, _⟩ := run_completed c ops hconf hids hdone
    exact ⟨new, tr, hrun, by rw [hdq], by rw [hst, hdq]⟩

/-- C16 witness: flushing group 3 and queue `[3]`, adding 3 again. -/
theorem C16_no_deduplication_witness :
    _AddToFullLogGroupList 3 ⟨3, [3], false⟩ = ⟨3, [3] ++ [3], false⟩ ∧
    ([3] ++ [(3 : Int)]).count 3 = [(3 : Int)].count 3 + 1 ∧
    ((3 : Int) ≠ NONE →
      AddToFullLogGroup demo 0 3 ⟨3, [3], false⟩ = some (⟨3, [3] ++ [3], false⟩, [])) ∧
    ((3 : Int) = NONE → false = true →
      AddToFullLogGroup demo 0 3 ⟨3, [3], false⟩ = some (⟨3, [3] ++ [3], true⟩, [])) ∧
    ((3 : Int) = NONE → false = false → (∀ x ∈ [(3 : Int)], x ≠ NONE) → (3 : Int) ≠ NONE →
      ∃ h t, [3] ++ [(3 : Int)] = h :: t ∧
        AddToFullLogGroup demo 0 3 ⟨3, [3], false⟩ = some (⟨h, t, false⟩, startCalls demo h)) ∧
    (∀ ops : List Op, conforms demo .idle (Init new).1 ops = true →
      (∀ x ∈ addedIds ops, x ≠ NONE) → pendingAfter demo .idle (Init new).1 ops = .idle →
      ∃ s tr, run demo ops (Init new).1 = some (s, tr) ∧
        (dirtyQueries tr).count 3 = (addedIds ops).count 3 ∧
        starts tr = (dirtyQueries tr).map demo.GetDirtyList) :=
  C16_no_deduplication demo 0 3 3 [3] false (by decide)

theorem producer_solo (c : Collaborators) (r g : Int) (s : LogGroupReleaser) :
    Producer.solo c 8 ⟨.addToList, g, r⟩ s = AddToFullLogGroup c r g s := by
  obtain ⟨f, q, b⟩ := s
  by_cases hf : f = -1
  · subst hf
    cases b with
    | true =>
      simp [Producer.solo, Producer.step, AddToFullLogGroup, _AddToFullLogGroupList,
        _FlushNextLogGroup, _HasFullLogGroup]
    | false =>
      cases hq : q ++ [g] with
      | nil => simp at hq
      | cons h t =>
        by_cases hh : h = -1
        · simp [Producer.solo, Producer.step, AddToFullLogGroup, _AddToFullLogGroupList,
            _FlushNextLogGroup, _HasFullLogGroup, _UpdateFlushingLogGroup, _PopFullLogGroup,
            hq, hh]
        · simp [Producer.solo, Producer.step, AddToFullLogGroup, _AddToFullLogGroupList,
            _FlushNextLogGroup, _HasFullLogGroup, _UpdateFlushingLogGroup, _PopFullLogGroup,
            hq, hh]
  · simp [Producer.solo, Producer.step, AddToFullLogGroup, _AddToFullLogGroupList,
      _FlushNextLogGroup, hf]

/-- C17 on the code: an interleaving of the atomic steps of two producers calling
`AddToFullLogGroup(7)` and `AddToFullLogGroup(8)` from the post-Init state starts two
checkpoints at once.  The first thread enqueues 7 and passes the test; the second enqueues 8,
passes the test, wins the exchange, makes 7 the flushing group, clears the flag and starts 7
(first conjunct: the state then); the first thread now wins the exchange too, overwrites the
flushing group 7 with 8 and starts 8, with no reset completion of 7 in between. -/
theorem C17_two_checkpoints_in_flight :
    interleave demo [false, false, true, true, true, true, true, true, true]
        ⟨.addToList, 7, 0⟩ ⟨.addToList, 8, 0⟩ (Init new).1
      = some (⟨.exchange, 7, 0⟩, ⟨.done, 8, 0⟩, ⟨7, [8], false⟩, startCalls demo 7) ∧
    interleave demo [false, false, false, false, false]
        ⟨.exchange, 7, 0⟩ ⟨.done, 8, 0⟩ ⟨7, [8], false⟩
      = some (⟨.done, 7, 0⟩, ⟨.done, 8, 0⟩, ⟨8, [], false⟩, startCalls demo 8) ∧
    interleave demo [false, false, true, true, true, true, true, true, true,
          false, false, false, false, false]
        ⟨.addToList, 7, 0⟩ ⟨.addToList, 8, 0⟩ (Init new).1
      = some (⟨.done, 7, 0⟩, ⟨.done, 8, 0⟩, ⟨8, [], false⟩,
          startCalls demo 7 ++ startCalls demo 8) ∧
    exclusive (startCalls demo 7 ++ startCalls demo 8) = false ∧
    notifies (startCalls demo 7 ++ startCalls demo 8) = [] := by
  refine ⟨?_, ?_, ?_, ?_, ?_⟩ <;> decide

/-- Once the meta file exists or is created, is opened, and the contents fit, `SaveVolumes`
returns `SUCCESS` after writing and closing, whatever `Write` answered. -/
theorem saveVolumes_after_write (ids : EventIds)
    (ToJson : String → List (List (String × String)) → String) (metaFs : MetaFsReplies)
    (volList : VolumeList)
    (hfile : metaFs.CheckFileExist = ids.SUCCESS ∨ metaFs.Create = ids.SUCCESS)
    (hopen : metaFs.Open = ids.SUCCESS)
    (hsize : (VolumeMetaIntf.serialize ToJson volList).utf8ByteSize < 256 * 1024) :
    VolumeMetaIntf.SaveVolumes ids ToJson metaFs volList
      = (ids.SUCCESS,
          (if metaFs.CheckFileExist ≠ ids.SUCCESS then
            [MetaCall.CheckFileExist "vbr", MetaCall.Create "vbr" (256 * 1024)]
          else [MetaCall.CheckFileExist "vbr"]) ++
          [MetaCall.Open "vbr", MetaCall.Write metaFs.fd (VolumeMetaIntf.serialize ToJson volList),
            MetaCall.Close metaFs.fd]) := by
  have hmod : (VolumeMetaIntf.serialize ToJson volList).utf8ByteSize % 2 ^ 32
      = (VolumeMetaIntf.serialize ToJson volList).utf8ByteSize :=
    Nat.mod_eq_of_lt (by omega)
  have hnot : ¬ (metaFs.CheckFileExist ≠ ids.SUCCESS ∧ metaFs.Create ≠ ids.SUCCESS) := by
    rintro ⟨h1, h2⟩
    rcases hfile with h | h
    · exact h1 h
    · exact h2 h
  have hlt : ¬ (VolumeMetaIntf.serialize ToJson volList).utf8ByteSize ≥ 256 * 1024 := by omega
  simp only [VolumeMetaIntf.SaveVolumes, hmod, if_neg hnot, hopen, ne_eq, not_true_eq_false, if_false,
    if_neg hlt]

/-- C19 on the code: a failed write is not reported.  With the meta file present, `Open`
succeeding and an empty volume list (empty contents), `SaveVolumes` returns `SUCCESS` for
every answer of `Write`, in particular for `META_WRITE_FAIL`; the `Write` call was made.  The
same holds for every volume list whose serialized contents are shorter than 256 KiB, whether
the file existed or was created. -/
theorem C19_write_failure_unreported :
    VolumeMetaIntf.SaveVolumes demoIds demoJson ⟨0, 0, 0, 5, demoIds.META_WRITE_FAIL⟩ ⟨0, []⟩
      = (demoIds.SUCCESS,
          [MetaCall.CheckFileExist "vbr", MetaCall.Open "vbr", MetaCall.Write 5 "",
            MetaCall.Close 5]) ∧
    demoIds.META_WRITE_FAIL ≠ demoIds.SUCCESS ∧
    (∀ (ids : EventIds) (ToJson : String → List (List (String × String)) → String)
        (metaFs : MetaFsReplies) (volList : VolumeList),
      (metaFs.CheckFileExist = ids.SUCCESS ∨ metaFs.Create = ids.SUCCESS) →
      metaFs.Open = ids.SUCCESS →
      (VolumeMetaIntf.serialize ToJson volList).utf8ByteSize < 256 * 1024 →
      (VolumeMetaIntf.SaveVolumes ids ToJson metaFs volList).1 = ids.SUCCESS) := by
  refine ⟨?_, by decide, ?_⟩
  · have h := saveVolumes_after_write demoIds demoJson ⟨0, 0, 0, 5, demoIds.META_WRITE_FAIL⟩
      ⟨0, []⟩ (Or.inl rfl) rfl (by decide)
    simpa [VolumeMetaIntf.serialize, demoIds] using h
  · intro ids ToJson metaFs volList hfile hopen hsize
    rw [saveVolumes_after_write ids ToJson metaFs volList hfile hopen hsize]

end pos
